import Mathlib

/-!
Four-way intersection signal simulation (`src/road_trafic.c`)

A shallow embedding of the traffic-signal program.  C `int` values are modelled by
unbounded `Int` (every quantity the program computes stays far below the range of a
32-bit `int`; statements are about exact integer arithmetic).  The array `Road r[LANES]`
is a `List Road`; the statements assume it has `LANES` entries.  Console output and the
one-second waits are recorded as a trace of observations, each carrying the contents of
the road array at that moment.
-/

namespace RoadTraffic

/-! ## Data model -/

/-- The constant `#define LANES 4`. -/
def LANES : Nat := 4

/-- Signal colours: `typedef enum { RED = 0, YELLOW = 1, GREEN = 2 } Signal`. -/
inductive Signal where
  | RED
  | YELLOW
  | GREEN
  deriving DecidableEq, Repr, Inhabited

/-- One approach of the intersection: the C struct `Road`. -/
structure Road where
  name : String
  signal : Signal
  greenTime : Int
  yellowTime : Int
  redTime : Int
  vehiclesWaiting : Int
  deriving DecidableEq, Repr, Inhabited

/-- Read access `r[i]` for a loop counter `i`. -/
def rd (r : List Road) (i : Nat) : Road :=
  r.getD i default

/-- In-place update of `r[i]` for a loop counter `i`; an index outside the array leaves it as is. -/
def updateAt : List Road → Nat → (Road → Road) → List Road
  | [], _, _ => []
  | x :: xs, 0, f => f x :: xs
  | x :: xs, n + 1, f => x :: updateAt xs n f

/-- Read access `r[idx]` for an `int` index. -/
def rdInt (r : List Road) (idx : Int) : Road :=
  if idx < 0 then default else rd r idx.toNat

/-- In-place update of `r[idx]` for an `int` index; an index outside the array leaves it as is. -/
def updateAtInt (r : List Road) (idx : Int) (f : Road → Road) : List Road :=
  if idx < 0 then r else updateAt r idx.toNat f

/-! ## Timing policy -/

/-- Sum of the green times: `totalGreenTime`. -/
def totalGreenTime (r : List Road) : Int :=
  (List.range LANES).foldl (fun sum i => sum + (rd r i).greenTime) 0

/-- Sum of the yellow times: `totalYellowTime`. -/
def totalYellowTime (r : List Road) : Int :=
  (List.range LANES).foldl (fun sum i => sum + (rd r i).yellowTime) 0

/-- Demand entry: `setVehicles`.  `input` is the sequence of integers the four `scanf` calls
read; a call that reads nothing leaves the field as it was.  A negative value is replaced by 0. -/
def setVehicles (r : List Road) (input : List Int) : List Road :=
  (List.range LANES).foldl (fun r i =>
    let r := match input.get? i with
      | some v => updateAt r i (fun x => { x with vehiclesWaiting := v })
      | none => r
    if (rd r i).vehiclesWaiting < 0 then
      updateAt r i (fun x => { x with vehiclesWaiting := 0 })
    else r) r

/-- Fixed timings: `applyModeTimings` (mode 1 = Normal, anything else = Rush). -/
def applyModeTimings (r : List Road) (mode : Int) : List Road :=
  (List.range LANES).foldl (fun r i =>
    let r := updateAt r i (fun x => { x with yellowTime := 3 })
    if mode = 1 then
      updateAt r i (fun x => { x with greenTime := 8 })
    else
      updateAt r i (fun x => { x with greenTime := 12 })) r

/-- Demand-dependent green time: `adaptiveGreen`.  The C division `/` truncates toward zero. -/
def adaptiveGreen (r : List Road) (baseGreen maxExtra : Int) : List Road :=
  (List.range LANES).foldl (fun r i =>
    let extra := Int.tdiv (rd r i).vehiclesWaiting 5
    let extra := if extra > maxExtra then maxExtra else extra
    updateAt r i (fun x => { x with greenTime := baseGreen + extra })) r

/-- Red time of each road, the green and yellow of the others: `computeRedTimes`. -/
def computeRedTimes (r : List Road) : List Road :=
  (List.range LANES).foldl (fun r i =>
    let red := (List.range LANES).foldl (fun red j =>
      if i = j then red else red + ((rd r j).greenTime + (rd r j).yellowTime)) 0
    updateAt r i (fun x => { x with redTime := red })) r

/-! ## Observations -/

/-- What the program does that can be seen from outside or that writes a signal field. -/
inductive Event where
  /-- The assignment `r[idx].signal = new`, the field holding `old` before it. -/
  | assign (idx : Int) (old new : Signal)
  /-- The status table printed by `printRoadStatus`. -/
  | status
  /-- The line `>> Phase: <name> GREEN` or `>> Phase: <name> YELLOW`. -/
  | phase (name : String) (s : Signal)
  /-- One iteration of the countdown: the line for `t` seconds remaining, then `waitSec(1)`. -/
  | tick (phaseName : String) (t : Nat)
  /-- The closing line `<phaseName>: Done!` of a countdown. -/
  | done (phaseName : String)
  /-- The line `Starting full signal cycle...`. -/
  | cycleStart
  /-- The line `Cycle Info: Total Green=.. sec, Total Yellow=.. sec`. -/
  | cycleInfo (totalGreen totalYellow : Int)
  /-- The line `Cycle completed!`. -/
  | cycleCompleted
  /-- A call `waitSec(s)` outside a countdown. -/
  | pause (s : Int)
  deriving DecidableEq, Repr

/-- An event together with the road array as it is right after the event. -/
structure Obs where
  event : Event
  roads : List Road
  deriving DecidableEq, Repr

/-- Attach the current road array to a list of events that do not change it. -/
def observe (r : List Road) (es : List Event) : List Obs :=
  es.map (fun e => { event := e, roads := r })

/-! ## Cycle engine -/

/-- The road `x` after the assignment `x.signal = s`. -/
def withSignal (s : Signal) (x : Road) : Road :=
  { x with signal := s }

/-- The assignment `r[i].signal = s` for a loop counter `i`, with its observation. -/
def assignSignal (r : List Road) (i : Nat) (s : Signal) : List Road × List Obs :=
  let r1 := updateAt r i (withSignal s)
  (r1, [{ event := Event.assign i (rd r i).signal s, roads := r1 }])

/-- The assignment `r[idx].signal = s` for an `int` index, with its observation. -/
def assignSignalInt (r : List Road) (idx : Int) (s : Signal) : List Road × List Obs :=
  let r1 := updateAtInt r idx (withSignal s)
  (r1, [{ event := Event.assign idx (rdInt r idx).signal s, roads := r1 }])

/-- Force every road to RED: `resetSignalsToRed`, one assignment per road in index order. -/
def resetSignalsToRed (r : List Road) : List Road × List Obs :=
  (List.range LANES).foldl (fun acc i =>
    let step := assignSignal acc.1 i Signal.RED
    (step.1, acc.2 ++ step.2)) (r, [])

/-- The loop of `countdownPrint`, `for (int t = sec; t >= 1; t--)`, started with `n`
iterations left: the counter takes the values `n, n-1, ..., 1`. -/
def countdownFrom (phaseName : String) : Nat → List Event
  | 0 => []
  | n + 1 => Event.tick phaseName (n + 1) :: countdownFrom phaseName n

/-- The events of `countdownPrint(phaseName, sec)`: `sec` ticks when `sec >= 1`, none otherwise,
then the closing line. -/
def countdownPrint (phaseName : String) (sec : Int) : List Event :=
  countdownFrom phaseName sec.toNat ++ [Event.done phaseName]

/-- One road's phase: `simulateOneRoadPhase`. -/
def simulateOneRoadPhase (r : List Road) (idx : Int) : List Road × List Obs :=
  let s0 := resetSignalsToRed r
  let s1 := assignSignalInt s0.1 idx Signal.GREEN
  let r1 := s1.1
  let t1 := observe r1
    ([Event.phase (rdInt r1 idx).name Signal.GREEN, Event.status]
      ++ countdownPrint "GREEN" (rdInt r1 idx).greenTime)
  let s2 := assignSignalInt r1 idx Signal.YELLOW
  let r2 := s2.1
  let t2 := observe r2
    ([Event.phase (rdInt r2 idx).name Signal.YELLOW, Event.status]
      ++ countdownPrint "YELLOW" (rdInt r2 idx).yellowTime)
  let s3 := assignSignalInt r2 idx Signal.RED
  (s3.1, s0.2 ++ s1.2 ++ t1 ++ s2.2 ++ t2 ++ s3.2)

/-- The phase loop of `simulateCycle`:
`for (int k = 0; k < LANES; k++) simulateOneRoadPhase(r, order[k]);`. -/
def phaseLoop (r : List Road) (order : List Int) : List Road × List Obs :=
  (List.range LANES).foldl (fun acc k =>
    let step := simulateOneRoadPhase acc.1 (order.getD k 0)
    (step.1, acc.2 ++ step.2)) (r, [])

/-- One full cycle: `simulateCycle`. -/
def simulateCycle (r : List Road) (order : List Int) : List Road × List Obs :=
  let r0 := computeRedTimes r
  let t0 := observe r0
    [Event.cycleStart, Event.status,
     Event.cycleInfo (totalGreenTime r0) (totalYellowTime r0), Event.pause 2]
  let s := phaseLoop r0 order
  (s.1, t0 ++ s.2 ++ observe s.1 [Event.cycleCompleted, Event.status, Event.pause 2])

/-! ## Phase sequencer and menu loop -/

/-- Store `v` in slot `i` of an `int` array whose slots may still be uninitialised;
`none` when `i` is outside the array. -/
def storeAt (a : List (Option Int)) (i : Int) (v : Int) : Option (List (Option Int)) :=
  if 0 ≤ i ∧ i.toNat < a.length then some (a.set i.toNat (some v)) else none

/-- The order built by the manual-override branch of `main` from the number read into
`first`, written over `order`.  `used` starts as `{0}`, `newOrder` starts uninitialised;
the result is `none` if an array is indexed outside its bounds or an uninitialised slot
is read.  Also returns the final value of `pos`. -/
def manualOrder (order : List Int) (first : Int) : Option (List Int × Int) := do
  let first := if first < 0 ∨ first > 3 then 0 else first
  let used : List (Option Int) := List.replicate LANES (some 0)
  let newOrder : List (Option Int) := List.replicate LANES none
  let newOrder ← storeAt newOrder 0 first
  let used ← storeAt used first 1
  let (newOrder, pos) ← (List.range LANES).foldlM (fun (acc : List (Option Int) × Int) i => do
      let u ← used.getD i none
      if u = 0 then
        let a ← storeAt acc.1 acc.2 i
        pure (a, acc.2 + 1)
      else pure acc) (newOrder, (1 : Int))
  let order ← (List.range LANES).foldlM (fun (order : List Int) i => do
      let v ← newOrder.getD i none
      if i < order.length then pure (order.set i v) else none) order
  pure (order, pos)

/-- The variables of `main` that live across iterations of the menu loop. -/
structure MainState where
  roads : List Road
  order : List Int
  deriving DecidableEq, Repr

/-- The state `main` starts with. -/
def initialState : MainState :=
  { roads := [
      { name := "North", signal := Signal.RED, greenTime := 8, yellowTime := 3,
        redTime := 0, vehiclesWaiting := 0 },
      { name := "South", signal := Signal.RED, greenTime := 8, yellowTime := 3,
        redTime := 0, vehiclesWaiting := 0 },
      { name := "East", signal := Signal.RED, greenTime := 8, yellowTime := 3,
        redTime := 0, vehiclesWaiting := 0 },
      { name := "West", signal := Signal.RED, greenTime := 8, yellowTime := 3,
        redTime := 0, vehiclesWaiting := 0 }],
    order := [0, 2, 1, 3] }

/-- What the operator types during one iteration of the menu loop: the menu choice, the
number read into `first` (read only for choice 4) and the numbers read by `setVehicles`
(read only for choices 1 to 4). -/
structure MenuInput where
  choice : Int
  first : Int
  demand : List Int
  deriving DecidableEq, Repr

/-- One iteration of the `while (1)` loop of `main` on a menu choice that was read as an
integer.  `none` means the loop was left (choice 5), or the manual-override branch indexed
an array outside its bounds. -/
def mainStep (st : MainState) (inp : MenuInput) : Option (MainState × List Obs) :=
  if inp.choice = 5 then none
  else if inp.choice = 1 then
    let r := applyModeTimings st.roads 1
    let r := setVehicles r inp.demand
    let c := simulateCycle r st.order
    some ({ roads := c.1, order := st.order }, c.2)
  else if inp.choice = 2 then
    let r := applyModeTimings st.roads 2
    let r := setVehicles r inp.demand
    let c := simulateCycle r st.order
    some ({ roads := c.1, order := st.order }, c.2)
  else if inp.choice = 3 then
    let r := setVehicles st.roads inp.demand
    let r := adaptiveGreen r 8 8
    let c := simulateCycle r st.order
    some ({ roads := c.1, order := st.order }, c.2)
  else if inp.choice = 4 then
    match manualOrder st.order inp.first with
    | none => none
    | some (order, _) =>
      let r := setVehicles st.roads inp.demand
      let r := applyModeTimings r 1
      let c := simulateCycle r order
      some ({ roads := c.1, order := order }, c.2)
  else
    some (st, observe st.roads [Event.pause 2])

/-! ## Properties of road arrays and traces -/

/-- The roads whose signal is GREEN or YELLOW. -/
def activeRoads (r : List Road) : List Road :=
  r.filter (fun x => x.signal = Signal.GREEN ∨ x.signal = Signal.YELLOW)

/-- The roads whose signal is RED. -/
def redRoads (r : List Road) : List Road :=
  r.filter (fun x => x.signal = Signal.RED)

/-- Mutual exclusion: exactly one road is GREEN or YELLOW and all the other roads are RED. -/
def mutualExclusion (r : List Road) : Prop :=
  (activeRoads r).length = 1 ∧ (redRoads r).length + 1 = r.length

instance (r : List Road) : Decidable (mutualExclusion r) := by
  unfold mutualExclusion
  infer_instance

/-- Every road is RED. -/
def allRed (r : List Road) : Prop :=
  ∀ x ∈ r, x.signal = Signal.RED

instance (r : List Road) : Decidable (allRed r) := by
  unfold allRed
  infer_instance

/-- The event is an assignment to a signal field. -/
def Event.isAssign : Event → Bool
  | Event.assign _ _ _ => true
  | _ => false

/-- The event is an assignment of RED to a signal field. -/
def Event.assignsRed : Event → Bool
  | Event.assign _ _ Signal.RED => true
  | _ => false

/-- The signal transitions of a trace, in order: the assignments that change the value of
the field, each as the road index and the new signal. -/
def transitions (t : List Obs) : List (Int × Signal) :=
  t.filterMap (fun o =>
    match o.event with
    | Event.assign idx old new => if old ≠ new then some (idx, new) else none
    | _ => none)

/-- The transitions made by the first `resetSignalsToRed` of a cycle: each road that is not
RED in `r` is set RED, in index order. -/
def initialResets (r : List Road) : List (Int × Signal) :=
  (List.range LANES).filterMap (fun i =>
    if (rd r i).signal ≠ Signal.RED then some ((i : Int), Signal.RED) else none)

/-- The transitions of serving the roads of `order` one after the other: each road goes
GREEN, then YELLOW, then RED. -/
def servedInOrder : List Int → List (Int × Signal)
  | [] => []
  | k :: ks => (k, Signal.GREEN) :: (k, Signal.YELLOW) :: (k, Signal.RED) :: servedInOrder ks

/-- The phase announcements of a trace, in order: road name and colour. -/
def announcements (t : List Obs) : List (String × Signal) :=
  t.filterMap (fun o =>
    match o.event with
    | Event.phase name s => some (name, s)
    | _ => none)

/-- The one-second waits of the countdowns in a trace, in order: for each, the roads that
are GREEN or YELLOW during the wait (name and colour) and the seconds shown as remaining. -/
def holds (t : List Obs) : List (List (String × Signal) × Nat) :=
  t.filterMap (fun o =>
    match o.event with
    | Event.tick _ n => some ((activeRoads o.roads).map (fun x => (x.name, x.signal)), n)
    | _ => none)

/-- The waits of one phase of the road `name` with `g` seconds of GREEN and `y` of YELLOW. -/
def phaseHolds (name : String) (g y : List Nat) : List (List (String × Signal) × Nat) :=
  g.map (fun n => ([(name, Signal.GREEN)], n)) ++ y.map (fun n => ([(name, Signal.YELLOW)], n))

/-- The menu loop of `main` run on a sequence of operator inputs: the state after the last
iteration and the whole trace; `none` if one of the iterations leaves the loop. -/
def runSteps : MainState → List MenuInput → Option (MainState × List Obs)
  | st, [] => some (st, [])
  | st, inp :: rest =>
    match mainStep st inp with
    | none => none
    | some (st1, t1) =>
      match runSteps st1 rest with
      | none => none
      | some (st2, t2) => some (st2, t1 ++ t2)

/-- Road `idx` has signal `s` and the three other roads are RED. -/
def onlyActive (r : List Road) (idx : Int) (s : Signal) : Prop :=
  (rdInt r idx).signal = s
    ∧ ∀ j : Nat, j < LANES → (j : Int) ≠ idx → (rd r j).signal = Signal.RED

instance (r : List Road) (idx : Int) (s : Signal) : Decidable (onlyActive r idx s) := by
  unfold onlyActive
  infer_instance

/-- The road arrays shown by `printRoadStatus` in a trace, in order. -/
def statusSnapshots (t : List Obs) : List (List Road) :=
  t.filterMap (fun o =>
    match o.event with
    | Event.status => some o.roads
    | _ => none)

/-- The one-second waits of a trace, in order: for each, the label of the countdown, the
signal road `idx` shows during the wait and the seconds shown as remaining. -/
def waits (idx : Int) (t : List Obs) : List (String × Signal × Nat) :=
  t.filterMap (fun o =>
    match o.event with
    | Event.tick phaseName n => some (phaseName, (rdInt o.roads idx).signal, n)
    | _ => none)

/-- The seconds shown by the one-second waits in a list of events, in order. -/
def tickValues (es : List Event) : List Nat :=
  es.filterMap (fun e =>
    match e with
    | Event.tick _ n => some n
    | _ => none)

/-- The numbers `n, n-1, ..., 1`. -/
def countingDown (n : Nat) : List Nat :=
  (List.range' 1 n).reverse

/-- The state of the menu loop is well formed: four roads, all RED, and an order that is a
permutation of the road indices. -/
def wellFormed (st : MainState) : Prop :=
  st.roads.length = LANES ∧ allRed st.roads ∧ st.order.Perm [0, 1, 2, 3]

/-! ## Sample inputs -/

/-- The initial roads with every signal stuck at GREEN. -/
def allGreenRoads : List Road :=
  initialState.roads.map (withSignal Signal.GREEN)

/-- The initial roads with demands 0, 12, 47 and 100. -/
def busyRoads : List Road :=
  setVehicles initialState.roads [0, 12, 47, 100]

/-- Four roads with unequal timings. -/
def unevenRoads : List Road :=
  [{ name := "North", signal := Signal.RED, greenTime := 5, yellowTime := 1,
     redTime := 0, vehiclesWaiting := 0 },
   { name := "South", signal := Signal.YELLOW, greenTime := 7, yellowTime := 2,
     redTime := 99, vehiclesWaiting := 3 },
   { name := "East", signal := Signal.RED, greenTime := 11, yellowTime := 3,
     redTime := 0, vehiclesWaiting := 0 },
   { name := "West", signal := Signal.GREEN, greenTime := 13, yellowTime := 4,
     redTime := 0, vehiclesWaiting := 8 }]

/-- A session at the menu: manual override starting at East, an adaptive cycle, an
invalid choice, and a manual override with an out-of-range road. -/
def sampleSession : List MenuInput :=
  [{ choice := 4, first := 2, demand := [1, 2, 3, 4] },
   { choice := 3, first := 0, demand := [10, 0, -3, 50] },
   { choice := 7, first := 0, demand := [] },
   { choice := 4, first := 9, demand := [0, 0, 0, 0] }]

/-- Later menu inputs that do not override the order: a normal cycle, an invalid choice,
a rush cycle. -/
def laterInputs : List MenuInput :=
  [{ choice := 1, first := 0, demand := [5, 5, 5, 5] },
   { choice := 9, first := 0, demand := [] },
   { choice := 2, first := 0, demand := [0, 40, 0, 0] }]

/-! ## Auxiliary facts -/

theorem length_four {α : Type} (l : List α) (h : l.length = 4) :
    ∃ a b c d, l = [a, b, c, d] := by
  match l, h with
  | [a, b, c, d], _ => exact ⟨a, b, c, d, rfl⟩

theorem range_LANES : List.range LANES = [0, 1, 2, 3] := rfl

/-- Closed form of `setVehicles` on four roads and four entered integers. -/
theorem setVehicles_four (a b c d : Road) (v0 v1 v2 v3 : Int) :
    setVehicles [a, b, c, d] [v0, v1, v2, v3]
      = [{ a with vehiclesWaiting := max v0 0 }, { b with vehiclesWaiting := max v1 0 },
         { c with vehiclesWaiting := max v2 0 }, { d with vehiclesWaiting := max v3 0 }] := by
  have key : ∀ v : Int, (v < 0 ∧ max v 0 = 0) ∨ (¬ v < 0 ∧ max v 0 = v) := by
    intro v
    rcases lt_or_le v 0 with h | h
    · exact Or.inl ⟨h, max_eq_right h.le⟩
    · exact Or.inr ⟨not_lt.mpr h, max_eq_left h⟩
  rcases key v0 with ⟨h0, e0⟩ | ⟨h0, e0⟩ <;> rcases key v1 with ⟨h1, e1⟩ | ⟨h1, e1⟩ <;>
    rcases key v2 with ⟨h2, e2⟩ | ⟨h2, e2⟩ <;> rcases key v3 with ⟨h3, e3⟩ | ⟨h3, e3⟩ <;>
    rw [e0, e1, e2, e3] <;>
    simp [setVehicles, range_LANES, rd, updateAt, h0, h1, h2, h3]

/-! ## Timing policy: theorems -/

/-- C3: after `computeRedTimes` the red time of road `i` is the sum, over the other roads `j`,
of the green plus yellow time road `j` had before the call. -/
theorem computeRedTimes_sum_of_others (r : List Road) (hr : r.length = LANES)
    (i : Nat) (hi : i < LANES) :
    (rd (computeRedTimes r) i).redTime
      = (((List.range LANES).filter (fun j => j ≠ i)).map
          (fun j => (rd r j).greenTime + (rd r j).yellowTime)).sum := by
  obtain ⟨a, b, c, d, rfl⟩ := length_four r hr
  have hi4 : i < 4 := hi
  interval_cases i <;>
    simp [computeRedTimes, range_LANES, rd, updateAt, List.filter] <;> ring

/-- C4: with non-negative demand and `maxExtra >= 0`, `adaptiveGreen` gives every road the
green time `baseGreen + clamp(floor(vehiclesWaiting / 5), 0, maxExtra)`, which is
`baseGreen + min(vehiclesWaiting / 5, maxExtra)`. -/
theorem adaptiveGreen_clamped (r : List Road) (baseGreen maxExtra : Int)
    (hr : r.length = LANES) (hv : ∀ x ∈ r, 0 ≤ x.vehiclesWaiting) (hm : 0 ≤ maxExtra)
    (i : Nat) (hi : i < LANES) :
    (rd (adaptiveGreen r baseGreen maxExtra) i).greenTime
        = baseGreen + max 0 (min ((rd r i).vehiclesWaiting / 5) maxExtra)
      ∧ (rd (adaptiveGreen r baseGreen maxExtra) i).greenTime
        = baseGreen + min ((rd r i).vehiclesWaiting / 5) maxExtra := by
  obtain ⟨a, b, c, d, rfl⟩ := length_four r hr
  have hi4 : i < 4 := hi
  have ha := hv a (by simp)
  have hb := hv b (by simp)
  have hc := hv c (by simp)
  have hd := hv d (by simp)
  interval_cases i <;>
    simp [adaptiveGreen, range_LANES, rd, updateAt, Int.tdiv_eq_ediv, ha, hb, hc, hd] <;>
    split_ifs <;> omega

/-- C5: after `applyModeTimings` every road has yellow time 3, and green time 8 in Normal
mode (1) and 12 in Rush mode (2), whatever the timings were before. -/
theorem applyModeTimings_fixed (r : List Road) (mode : Int) (hr : r.length = LANES)
    (i : Nat) (hi : i < LANES) :
    (rd (applyModeTimings r mode) i).yellowTime = 3
      ∧ (mode = 1 → (rd (applyModeTimings r mode) i).greenTime = 8)
      ∧ (mode = 2 → (rd (applyModeTimings r mode) i).greenTime = 12) := by
  obtain ⟨a, b, c, d, rfl⟩ := length_four r hr
  have hi4 : i < 4 := hi
  by_cases hmode : mode = 1
  · interval_cases i <;> simp [applyModeTimings, range_LANES, rd, updateAt, hmode]
  · interval_cases i <;> simp [applyModeTimings, range_LANES, rd, updateAt, hmode]

/-- C8: `setVehicles` stores `max(entered, 0)` for each of the four entered integers, so every
stored demand is non-negative. -/
theorem setVehicles_clamps (r : List Road) (input : List Int) (hr : r.length = LANES)
    (hin : input.length = LANES) (i : Nat) (hi : i < LANES) :
    (rd (setVehicles r input) i).vehiclesWaiting = max (input.getD i 0) 0
      ∧ 0 ≤ (rd (setVehicles r input) i).vehiclesWaiting := by
  obtain ⟨a, b, c, d, rfl⟩ := length_four r hr
  obtain ⟨v0, v1, v2, v3, rfl⟩ := length_four input hin
  have hi4 : i < 4 := hi
  have h := setVehicles_four a b c d v0 v1 v2 v3
  interval_cases i <;> simp [h, rd]

/-! ## Cycle engine: theorems -/

theorem index_cases (idx : Int) (h0 : 0 ≤ idx) (h3 : idx ≤ 3) :
    idx = 0 ∨ idx = 1 ∨ idx = 2 ∨ idx = 3 := by
  omega

/-- Closed form of `resetSignalsToRed` on four roads. -/
theorem resetSignalsToRed_four (a b c d : Road) :
    resetSignalsToRed [a, b, c, d]
      = ([withSignal Signal.RED a, withSignal Signal.RED b, withSignal Signal.RED c,
          withSignal Signal.RED d],
         [{ event := Event.assign 0 a.signal Signal.RED,
            roads := [withSignal Signal.RED a, b, c, d] },
          { event := Event.assign 1 b.signal Signal.RED,
            roads := [withSignal Signal.RED a, withSignal Signal.RED b, c, d] },
          { event := Event.assign 2 c.signal Signal.RED,
            roads := [withSignal Signal.RED a, withSignal Signal.RED b,
                      withSignal Signal.RED c, d] },
          { event := Event.assign 3 d.signal Signal.RED,
            roads := [withSignal Signal.RED a, withSignal Signal.RED b,
                      withSignal Signal.RED c, withSignal Signal.RED d] }]) := by
  simp [resetSignalsToRed, assignSignal, updateAt, rd, range_LANES]

/-- Closed form of one phase: the reset, then the road array with only `idx` GREEN shown
and held, then the same with `idx` YELLOW, then all roads RED. -/
theorem simulateOneRoadPhase_eq (r : List Road) (idx : Int) (hr : r.length = LANES)
    (h0 : 0 ≤ idx) (h3 : idx ≤ 3) :
    simulateOneRoadPhase r idx
      = (r.map (withSignal Signal.RED),
         (resetSignalsToRed r).2
          ++ ({ event := Event.assign idx Signal.RED Signal.GREEN,
                roads := updateAtInt (r.map (withSignal Signal.RED)) idx
                  (withSignal Signal.GREEN) }
              :: observe (updateAtInt (r.map (withSignal Signal.RED)) idx
                  (withSignal Signal.GREEN))
                ([Event.phase (rdInt r idx).name Signal.GREEN, Event.status]
                  ++ countdownPrint "GREEN" (rdInt r idx).greenTime))
          ++ ({ event := Event.assign idx Signal.GREEN Signal.YELLOW,
                roads := updateAtInt (r.map (withSignal Signal.RED)) idx
                  (withSignal Signal.YELLOW) }
              :: observe (updateAtInt (r.map (withSignal Signal.RED)) idx
                  (withSignal Signal.YELLOW))
                ([Event.phase (rdInt r idx).name Signal.YELLOW, Event.status]
                  ++ countdownPrint "YELLOW" (rdInt r idx).yellowTime))
          ++ [{ event := Event.assign idx Signal.YELLOW Signal.RED,
                roads := r.map (withSignal Signal.RED) }]) := by
  obtain ⟨a, b, c, d, rfl⟩ := length_four r hr
  rcases index_cases idx h0 h3 with h | h | h | h <;> subst h <;>
    simp [simulateOneRoadPhase, resetSignalsToRed_four, assignSignalInt, updateAtInt,
      updateAt, rdInt, rd, withSignal]

theorem simulateOneRoadPhase_roads (r : List Road) (idx : Int) (hr : r.length = LANES)
    (h0 : 0 ≤ idx) (h3 : idx ≤ 3) :
    (simulateOneRoadPhase r idx).1 = r.map (withSignal Signal.RED) := by
  rw [simulateOneRoadPhase_eq r idx hr h0 h3]

theorem map_red_idem (r : List Road) :
    (r.map (withSignal Signal.RED)).map (withSignal Signal.RED)
      = r.map (withSignal Signal.RED) := by
  simp [List.map_map, Function.comp_def, withSignal]

/-- The phase loop on an order with entries in 0..3: all roads end RED, and the trace is
the trace of the first phase on `r` followed by three phases on the all-RED array. -/
theorem phaseLoop_eq (r : List Road) (k0 k1 k2 k3 : Int) (hr : r.length = LANES)
    (h : ∀ k ∈ [k0, k1, k2, k3], 0 ≤ k ∧ k ≤ 3) :
    phaseLoop r [k0, k1, k2, k3]
      = (r.map (withSignal Signal.RED),
         (simulateOneRoadPhase r k0).2
          ++ (simulateOneRoadPhase (r.map (withSignal Signal.RED)) k1).2
          ++ (simulateOneRoadPhase (r.map (withSignal Signal.RED)) k2).2
          ++ (simulateOneRoadPhase (r.map (withSignal Signal.RED)) k3).2) := by
  have hR : (r.map (withSignal Signal.RED)).length = LANES := by simpa using hr
  have e0 := simulateOneRoadPhase_roads r k0 hr (h k0 (by simp)).1 (h k0 (by simp)).2
  have e1 := simulateOneRoadPhase_roads _ k1 hR (h k1 (by simp)).1 (h k1 (by simp)).2
  have e2 := simulateOneRoadPhase_roads _ k2 hR (h k2 (by simp)).1 (h k2 (by simp)).2
  have e3 := simulateOneRoadPhase_roads _ k3 hR (h k3 (by simp)).1 (h k3 (by simp)).2
  rw [map_red_idem] at e1 e2 e3
  simp only [phaseLoop, range_LANES, List.foldl_cons, List.foldl_nil, List.getD_cons_zero,
    List.getD_cons_succ, List.nil_append, e0, e1, e2, e3]

theorem computeRedTimes_length (r : List Road) (hr : r.length = LANES) :
    (computeRedTimes r).length = LANES := by
  obtain ⟨a, b, c, d, rfl⟩ := length_four r hr
  show (computeRedTimes [a, b, c, d]).length = 4
  simp [computeRedTimes, range_LANES, updateAt]

/-- C9: whatever the signals were before and whatever the order (entries in 0..3), when
`simulateCycle` returns there are four roads and all of them are RED. -/
theorem simulateCycle_ends_all_red (r : List Road) (order : List Int)
    (hr : r.length = LANES) (ho : order.length = LANES)
    (hrange : ∀ k ∈ order, 0 ≤ k ∧ k ≤ 3) :
    (simulateCycle r order).1.length = LANES
      ∧ ∀ x ∈ (simulateCycle r order).1, x.signal = Signal.RED := by
  obtain ⟨k0, k1, k2, k3, rfl⟩ := length_four order ho
  have hc := computeRedTimes_length r hr
  have e : (simulateCycle r [k0, k1, k2, k3]).1
      = (computeRedTimes r).map (withSignal Signal.RED) := by
    simp only [simulateCycle, phaseLoop_eq _ k0 k1 k2 k3 hc hrange]
  rw [e]
  refine ⟨by simpa using hc, ?_⟩
  intro x hx
  obtain ⟨y, _, rfl⟩ := List.mem_map.mp hx
  rfl

theorem mem_observe (r : List Road) (es : List Event) (o : Obs) :
    o ∈ observe r es ↔ o.roads = r ∧ o.event ∈ es := by
  constructor
  · intro h
    obtain ⟨e, he, rfl⟩ := List.mem_map.mp h
    exact ⟨rfl, he⟩
  · rintro ⟨h1, h2⟩
    exact List.mem_map.mpr ⟨o.event, h2, by cases o; cases h1; rfl⟩

theorem exclusive_of_one_active (r : List Road) (idx : Int) (s : Signal)
    (hr : r.length = LANES) (h0 : 0 ≤ idx) (h3 : idx ≤ 3) (hs : s ≠ Signal.RED) :
    mutualExclusion (updateAtInt (r.map (withSignal Signal.RED)) idx (withSignal s)) := by
  obtain ⟨a, b, c, d, rfl⟩ := length_four r hr
  rcases index_cases idx h0 h3 with h | h | h | h <;> subst h <;> cases s <;>
    simp [mutualExclusion, activeRoads, redRoads, updateAtInt, updateAt, withSignal,
      List.filter] at hs ⊢

theorem allRed_map_red (r : List Road) : allRed (r.map (withSignal Signal.RED)) := by
  intro x hx
  obtain ⟨y, _, rfl⟩ := List.mem_map.mp hx
  rfl

theorem resetSignalsToRed_assignsRed (r : List Road) (hr : r.length = LANES) :
    ∀ o ∈ (resetSignalsToRed r).2, o.event.assignsRed = true := by
  obtain ⟨a, b, c, d, rfl⟩ := length_four r hr
  simp [resetSignalsToRed_four, Event.assignsRed]

theorem resetSignalsToRed_trace_length (r : List Road) (hr : r.length = LANES) :
    (resetSignalsToRed r).2.length = LANES := by
  obtain ⟨a, b, c, d, rfl⟩ := length_four r hr
  simp [resetSignalsToRed_four, LANES]

theorem resetSignalsToRed_keeps_allRed (r : List Road) (hr : r.length = LANES)
    (hred : allRed r) : ∀ o ∈ (resetSignalsToRed r).2, allRed o.roads := by
  obtain ⟨a, b, c, d, rfl⟩ := length_four r hr
  have ha := hred a (by simp)
  have hb := hred b (by simp)
  have hc := hred c (by simp)
  have hd := hred d (by simp)
  simp [resetSignalsToRed_four, allRed, withSignal, hb, hc, hd]

theorem countdownPrint_no_assign (phaseName : String) (sec : Int) :
    ∀ e ∈ countdownPrint phaseName sec, e.isAssign = false := by
  have hfrom : ∀ n : Nat, ∀ e ∈ countdownFrom phaseName n, e.isAssign = false := by
    intro n
    induction n with
    | zero => simp [countdownFrom]
    | succ n ih =>
      intro e he
      simp only [countdownFrom, List.mem_cons] at he
      rcases he with rfl | he
      · rfl
      · exact ih e he
  intro e he
  simp only [countdownPrint, List.mem_append, List.mem_singleton] at he
  rcases he with he | rfl
  · exact hfrom _ e he
  · rfl

theorem assignsRed_of_not_isAssign (e : Event) (h : e.isAssign = false) :
    e.assignsRed = false := by
  cases e <;> simp [Event.isAssign, Event.assignsRed] at h ⊢

/-- Within one phase, every state other than those right after an assignment of RED has
exactly one road GREEN or YELLOW and the others RED. -/
theorem simulateOneRoadPhase_exclusive (r : List Road) (idx : Int) (hr : r.length = LANES)
    (h0 : 0 ≤ idx) (h3 : idx ≤ 3) :
    ∀ o ∈ (simulateOneRoadPhase r idx).2, o.event.assignsRed = false →
      mutualExclusion o.roads := by
  intro o ho hne
  have hG := exclusive_of_one_active r idx Signal.GREEN hr h0 h3 (by decide)
  have hY := exclusive_of_one_active r idx Signal.YELLOW hr h0 h3 (by decide)
  rw [simulateOneRoadPhase_eq r idx hr h0 h3] at ho
  simp only [List.mem_append, List.mem_cons, mem_observe, List.mem_singleton,
    List.not_mem_nil, or_false] at ho
  rcases ho with ((ho | ho | ho) | ho | ho) | ho
  · rw [resetSignalsToRed_assignsRed r hr o ho] at hne
    simp [Event.assignsRed] at hne
  · subst ho
    exact hG
  · rw [ho.1]
    exact hG
  · subst ho
    exact hY
  · rw [ho.1]
    exact hY
  · subst ho
    simp [Event.assignsRed] at hne

/-- Within one phase, after the four assignments of the reset, every state right after an
assignment of RED has all roads RED. -/
theorem simulateOneRoadPhase_red_after_reset (r : List Road) (idx : Int)
    (hr : r.length = LANES) (h0 : 0 ≤ idx) (h3 : idx ≤ 3) :
    ∀ o ∈ (simulateOneRoadPhase r idx).2.drop LANES, o.event.assignsRed = true →
      allRed o.roads := by
  intro o ho hred
  rw [simulateOneRoadPhase_eq r idx hr h0 h3] at ho
  simp only [List.append_assoc] at ho
  rw [List.drop_append_of_le_length (le_of_eq (resetSignalsToRed_trace_length r hr).symm),
    ← resetSignalsToRed_trace_length r hr, List.drop_length, List.nil_append] at ho
  simp only [List.mem_append, List.mem_cons, mem_observe, List.mem_singleton,
    List.not_mem_nil, or_false, false_or, List.cons_append] at ho
  rcases ho with ho | ⟨_, ho⟩ | ho | ⟨_, ho⟩ | ho
  · subst ho
    simp [Event.assignsRed] at hred
  · rcases ho with ho | ho | ho
    · rw [ho] at hred
      simp [Event.assignsRed] at hred
    · rw [ho] at hred
      simp [Event.assignsRed] at hred
    · rw [assignsRed_of_not_isAssign _ (countdownPrint_no_assign _ _ _ ho)] at hred
      simp [Event.assignsRed] at hred
  · subst ho
    simp [Event.assignsRed] at hred
  · rcases ho with ho | ho | ho
    · rw [ho] at hred
      simp [Event.assignsRed] at hred
    · rw [ho] at hred
      simp [Event.assignsRed] at hred
    · rw [assignsRed_of_not_isAssign _ (countdownPrint_no_assign _ _ _ ho)] at hred
      simp [Event.assignsRed] at hred
  · subst ho
    exact allRed_map_red r

/-- Within one phase started with all roads RED, every state right after an assignment of
RED has all roads RED. -/
theorem simulateOneRoadPhase_red_from_red (r : List Road) (idx : Int)
    (hr : r.length = LANES) (h0 : 0 ≤ idx) (h3 : idx ≤ 3) (hall : allRed r) :
    ∀ o ∈ (simulateOneRoadPhase r idx).2, o.event.assignsRed = true → allRed o.roads := by
  intro o ho hred
  have hsplit := List.take_append_drop LANES (simulateOneRoadPhase r idx).2
  rw [← hsplit, List.mem_append] at ho
  rcases ho with ho | ho
  · have htake : (simulateOneRoadPhase r idx).2.take LANES = (resetSignalsToRed r).2 := by
      rw [simulateOneRoadPhase_eq r idx hr h0 h3]
      simp only [List.append_assoc]
      rw [List.take_append_of_le_length
        (le_of_eq (resetSignalsToRed_trace_length r hr).symm),
        ← resetSignalsToRed_trace_length r hr, List.take_length]
    rw [htake] at ho
    exact resetSignalsToRed_keeps_allRed r hr hall o ho
  · exact simulateOneRoadPhase_red_after_reset r idx hr h0 h3 o ho hred

theorem simulateOneRoadPhase_trace_length (r : List Road) (idx : Int)
    (hr : r.length = LANES) (h0 : 0 ≤ idx) (h3 : idx ≤ 3) :
    LANES ≤ (simulateOneRoadPhase r idx).2.length := by
  rw [simulateOneRoadPhase_eq r idx hr h0 h3]
  simp only [List.length_append, resetSignalsToRed_trace_length r hr]
  omega

/-- C1 (amended): during the phase loop, every state other than those right after an
assignment of RED (so: after each assignment of GREEN or YELLOW and through the displays
and countdown ticks that follow) has exactly one road GREEN or YELLOW and all others RED;
and once the four assignments of the first `resetSignalsToRed` are done, every state right
after an assignment of RED has all roads RED. -/
theorem phaseLoop_mutual_exclusion (r : List Road) (order : List Int)
    (hr : r.length = LANES) (ho : order.length = LANES)
    (hrange : ∀ k ∈ order, 0 ≤ k ∧ k ≤ 3) :
    (∀ o ∈ (phaseLoop r order).2, o.event.assignsRed = false → mutualExclusion o.roads)
      ∧ (∀ o ∈ (phaseLoop r order).2.drop LANES, o.event.assignsRed = true →
          allRed o.roads) := by
  obtain ⟨k0, k1, k2, k3, rfl⟩ := length_four order ho
  have hR : (r.map (withSignal Signal.RED)).length = LANES := by simpa using hr
  have hall := allRed_map_red r
  have b0 := hrange k0 (by simp)
  have b1 := hrange k1 (by simp)
  have b2 := hrange k2 (by simp)
  have b3 := hrange k3 (by simp)
  rw [phaseLoop_eq r k0 k1 k2 k3 hr hrange]
  constructor
  · intro o ho hne
    simp only [List.mem_append] at ho
    rcases ho with ((ho | ho) | ho) | ho
    · exact simulateOneRoadPhase_exclusive r k0 hr b0.1 b0.2 o ho hne
    · exact simulateOneRoadPhase_exclusive _ k1 hR b1.1 b1.2 o ho hne
    · exact simulateOneRoadPhase_exclusive _ k2 hR b2.1 b2.2 o ho hne
    · exact simulateOneRoadPhase_exclusive _ k3 hR b3.1 b3.2 o ho hne
  · intro o ho hred
    simp only [List.append_assoc] at ho
    rw [List.drop_append_of_le_length (simulateOneRoadPhase_trace_length r k0 hr b0.1 b0.2)]
      at ho
    simp only [List.mem_append] at ho
    rcases ho with ho | ho | ho | ho
    · exact simulateOneRoadPhase_red_after_reset r k0 hr b0.1 b0.2 o ho hred
    · exact simulateOneRoadPhase_red_from_red _ k1 hR b1.1 b1.2 hall o ho hred
    · exact simulateOneRoadPhase_red_from_red _ k2 hR b2.1 b2.2 hall o ho hred
    · exact simulateOneRoadPhase_red_from_red _ k3 hR b3.1 b3.2 hall o ho hred

/-- C1 as stated fails: in the cycle run from the program's initial state in the default
order, the state right after the first assignment to a signal field (road 0 set RED by
`resetSignalsToRed`) has no road GREEN or YELLOW. -/
theorem mutual_exclusion_fails_after_assignment :
    ¬ (∀ o ∈ (phaseLoop initialState.roads initialState.order).2,
        o.event.isAssign = true → mutualExclusion o.roads) := by
  intro h
  have h1 := h { event := Event.assign 0 Signal.RED Signal.RED, roads := initialState.roads }
    (by decide) rfl
  revert h1
  decide

theorem transitions_append (s t : List Obs) :
    transitions (s ++ t) = transitions s ++ transitions t := by
  simp [transitions, List.filterMap_append]

theorem transitions_cons (o : Obs) (t : List Obs) :
    transitions (o :: t) = transitions [o] ++ transitions t :=
  transitions_append [o] t

theorem transitions_observe (r : List Road) (es : List Event)
    (h : ∀ e ∈ es, e.isAssign = false) : transitions (observe r es) = [] := by
  induction es with
  | nil => rfl
  | cons e es ih =>
    have he := h e (by simp)
    have hes := ih (fun e1 h1 => h e1 (by simp [h1]))
    rw [observe, List.map_cons, transitions_cons, ← observe, hes]
    cases e <;> simp [Event.isAssign, transitions] at he ⊢

theorem transitions_reset (r : List Road) (hr : r.length = LANES) :
    transitions (resetSignalsToRed r).2 = initialResets r := by
  obtain ⟨a, b, c, d, rfl⟩ := length_four r hr
  simp only [resetSignalsToRed_four, transitions, initialResets, range_LANES, rd,
    List.filterMap_cons, List.filterMap_nil, List.getD_cons_zero, List.getD_cons_succ]
  by_cases ha : a.signal = Signal.RED <;> by_cases hb : b.signal = Signal.RED <;>
    by_cases hc : c.signal = Signal.RED <;> by_cases hd : d.signal = Signal.RED <;>
    simp [ha, hb, hc, hd]

theorem initialResets_of_allRed (r : List Road) (hr : r.length = LANES) (hall : allRed r) :
    initialResets r = [] := by
  obtain ⟨a, b, c, d, rfl⟩ := length_four r hr
  have ha := hall a (by simp)
  have hb := hall b (by simp)
  have hc := hall c (by simp)
  have hd := hall d (by simp)
  simp [initialResets, range_LANES, rd, ha, hb, hc, hd]

theorem phase_events_no_assign (name phaseName : String) (s : Signal) (sec : Int) :
    ∀ e ∈ [Event.phase name s, Event.status] ++ countdownPrint phaseName sec,
      e.isAssign = false := by
  intro e he
  simp only [List.cons_append, List.nil_append, List.mem_cons] at he
  rcases he with rfl | rfl | he
  · rfl
  · rfl
  · exact countdownPrint_no_assign _ _ e he

/-- The transitions of one phase: the roads the reset had to force to RED, then the served
road going GREEN, YELLOW, RED. -/
theorem simulateOneRoadPhase_transitions (r : List Road) (idx : Int)
    (hr : r.length = LANES) (h0 : 0 ≤ idx) (h3 : idx ≤ 3) :
    transitions (simulateOneRoadPhase r idx).2
      = initialResets r
        ++ [(idx, Signal.GREEN), (idx, Signal.YELLOW), (idx, Signal.RED)] := by
  rw [simulateOneRoadPhase_eq r idx hr h0 h3]
  simp only [transitions_append, transitions_reset r hr]
  rw [transitions_cons, transitions_observe _ _ (phase_events_no_assign _ _ _ _),
    transitions_cons _ (observe _ _),
    transitions_observe _ _ (phase_events_no_assign _ _ _ _)]
  simp [transitions]

theorem phaseLoop_transitions_eq (r : List Road) (k0 k1 k2 k3 : Int)
    (hr : r.length = LANES) (h : ∀ k ∈ [k0, k1, k2, k3], 0 ≤ k ∧ k ≤ 3) :
    transitions (phaseLoop r [k0, k1, k2, k3]).2
      = initialResets r ++ servedInOrder [k0, k1, k2, k3] := by
  have hR : (r.map (withSignal Signal.RED)).length = LANES := by simpa using hr
  have hnil := initialResets_of_allRed _ hR (allRed_map_red r)
  have b0 := h k0 (by simp)
  have b1 := h k1 (by simp)
  have b2 := h k2 (by simp)
  have b3 := h k3 (by simp)
  rw [phaseLoop_eq r k0 k1 k2 k3 hr h]
  simp only [transitions_append, simulateOneRoadPhase_transitions r k0 hr b0.1 b0.2,
    simulateOneRoadPhase_transitions _ k1 hR b1.1 b1.2,
    simulateOneRoadPhase_transitions _ k2 hR b2.1 b2.2,
    simulateOneRoadPhase_transitions _ k3 hR b3.1 b3.2, hnil, servedInOrder]
  simp

theorem count_green_servedInOrder (i : Int) (order : List Int) :
    (servedInOrder order).count (i, Signal.GREEN) = order.count i := by
  induction order with
  | nil => rfl
  | cons k ks ih =>
    by_cases hk : k = i
    · subst hk
      simp [servedInOrder, List.count_cons, ih]
    · have hk2 : ¬ i = k := fun e => hk e.symm
      simp [servedInOrder, List.count_cons, ih, hk, hk2]

theorem count_green_initialResets (i : Int) (r : List Road) :
    (initialResets r).count (i, Signal.GREEN) = 0 := by
  rw [List.count_eq_zero]
  intro hmem
  simp only [initialResets, List.mem_filterMap] at hmem
  obtain ⟨j, _, hj⟩ := hmem
  split_ifs at hj
  simp at hj

/-- C2 (amended): for an order that is a permutation of 0..3, the signal transitions of the
phase loop are: first each road that was not RED at the start set RED (by the first
`resetSignalsToRed`, none if all roads start RED), then for each `k` in turn road
`order[k]` set GREEN, YELLOW, RED; so from an all-RED start the sequence is exactly the
served sequence, and in any case every road goes GREEN exactly once. -/
theorem phaseLoop_transitions (r : List Road) (order : List Int)
    (hr : r.length = LANES) (hperm : order.Perm [0, 1, 2, 3]) :
    transitions (phaseLoop r order).2 = initialResets r ++ servedInOrder order
      ∧ (allRed r → transitions (phaseLoop r order).2 = servedInOrder order)
      ∧ ∀ i ∈ [(0 : Int), 1, 2, 3],
          (transitions (phaseLoop r order).2).count (i, Signal.GREEN) = 1 := by
  have hlen : order.length = 4 := hperm.length_eq
  obtain ⟨k0, k1, k2, k3, rfl⟩ := length_four order hlen
  have hrange : ∀ k ∈ [k0, k1, k2, k3], 0 ≤ k ∧ k ≤ 3 := by
    intro k hk
    have hk2 := hperm.subset hk
    simp only [List.mem_cons, List.mem_singleton, List.not_mem_nil, or_false] at hk2
    omega
  have heq := phaseLoop_transitions_eq r k0 k1 k2 k3 hr hrange
  refine ⟨heq, ?_, ?_⟩
  · intro hall
    rw [heq, initialResets_of_allRed r hr hall, List.nil_append]
  · intro i hi
    rw [heq, List.count_append, count_green_initialResets, count_green_servedInOrder,
      hperm.count_eq]
    simp only [List.mem_cons, List.mem_singleton, List.not_mem_nil, or_false] at hi
    rcases hi with rfl | rfl | rfl | rfl <;> decide

/-- C2 as stated fails: started with road 1 still GREEN, the first transition of the phase
loop is road 1 set RED by `resetSignalsToRed`, before road 0 is set GREEN. -/
theorem transitions_not_only_served :
    transitions (phaseLoop
        [{ name := "North", signal := Signal.RED, greenTime := 8, yellowTime := 3,
           redTime := 0, vehiclesWaiting := 0 },
         { name := "South", signal := Signal.GREEN, greenTime := 8, yellowTime := 3,
           redTime := 0, vehiclesWaiting := 0 },
         { name := "East", signal := Signal.RED, greenTime := 8, yellowTime := 3,
           redTime := 0, vehiclesWaiting := 0 },
         { name := "West", signal := Signal.RED, greenTime := 8, yellowTime := 3,
           redTime := 0, vehiclesWaiting := 0 }] [0, 1, 2, 3]).2
      ≠ servedInOrder [0, 1, 2, 3] := by
  decide

/-! ## Phase sequencer and menu loop: theorems -/

/-- C6: for a chosen first road `f` in 0..3 and any previous order, the manual-override
branch builds `f` followed by the other indices of 0..3 in ascending order (and `main`
keeps that order); `f = 2` gives `[2, 0, 1, 3]`, which is not the rotation of the default
order `[0, 2, 1, 3]` to start at 2. -/
theorem manualOrder_chosen_first (order : List Int) (f : Int) (ho : order.length = LANES)
    (h0 : 0 ≤ f) (h3 : f ≤ 3) :
    (manualOrder order f).map Prod.fst = some (f :: [0, 1, 2, 3].filter (fun i => i ≠ f))
      ∧ (∀ (roads : List Road) (demand : List Int),
          (mainStep { roads := roads, order := order }
              { choice := 4, first := f, demand := demand }).map (fun x => x.1.order)
            = some (f :: [0, 1, 2, 3].filter (fun i => i ≠ f)))
      ∧ (manualOrder order 2).map Prod.fst = some [2, 0, 1, 3]
      ∧ (manualOrder initialState.order 2).map Prod.fst
          ≠ some (initialState.order.rotate 1) := by
  obtain ⟨o0, o1, o2, o3, rfl⟩ := length_four order ho
  have h2 : manualOrder [o0, o1, o2, o3] 2 = some ([2, 0, 1, 3], 4) := rfl
  have hf : manualOrder [o0, o1, o2, o3] f
      = some (f :: [0, 1, 2, 3].filter (fun i => i ≠ f), 4) := by
    rcases index_cases f h0 h3 with h | h | h | h <;> subst h <;> rfl
  refine ⟨by rw [hf]; rfl, ?_, by rw [h2]; rfl, by decide⟩
  intro roads demand
  simp [mainStep, hf]

/-- C7: a number outside 0..3 read into `first` is replaced by 0: the branch builds the order
`[0, 1, 2, 3]` with `pos` ending at 4, no array is indexed outside its bounds (the result is
not `none`), and `main` goes on with that order. -/
theorem manualOrder_out_of_range (order : List Int) (first : Int)
    (ho : order.length = LANES) (hout : first < 0 ∨ 3 < first) :
    manualOrder order first = some ([0, 1, 2, 3], 4)
      ∧ ∀ (roads : List Road) (demand : List Int),
          (mainStep { roads := roads, order := order }
              { choice := 4, first := first, demand := demand }).map (fun x => x.1.order)
            = some [0, 1, 2, 3] := by
  obtain ⟨o0, o1, o2, o3, rfl⟩ := length_four order ho
  have hout2 : first < 0 ∨ first > 3 := hout
  have hf : manualOrder [o0, o1, o2, o3] first = some ([0, 1, 2, 3], 4) := by
    simp only [manualOrder, hout2, if_true]
    rfl
  refine ⟨hf, ?_⟩
  intro roads demand
  simp [mainStep, hf]

/-- C10: from the initial state, menu choice 1 with demand `[0, 0, 0, 0]` announces and
serves North, East, South, West in that sequence, each held GREEN for the eight ticks
8..1 and then YELLOW for the three ticks 3..1, and leaves four roads, all RED. -/
theorem normal_mode_end_to_end (first : Int) :
    (mainStep initialState { choice := 1, first := first, demand := [0, 0, 0, 0] }).map
        (fun x => announcements x.2)
      = some [("North", Signal.GREEN), ("North", Signal.YELLOW),
              ("East", Signal.GREEN), ("East", Signal.YELLOW),
              ("South", Signal.GREEN), ("South", Signal.YELLOW),
              ("West", Signal.GREEN), ("West", Signal.YELLOW)]
    ∧ (mainStep initialState { choice := 1, first := first, demand := [0, 0, 0, 0] }).map
        (fun x => holds x.2)
      = some (phaseHolds "North" [8, 7, 6, 5, 4, 3, 2, 1] [3, 2, 1]
            ++ phaseHolds "East" [8, 7, 6, 5, 4, 3, 2, 1] [3, 2, 1]
            ++ phaseHolds "South" [8, 7, 6, 5, 4, 3, 2, 1] [3, 2, 1]
            ++ phaseHolds "West" [8, 7, 6, 5, 4, 3, 2, 1] [3, 2, 1])
    ∧ (mainStep initialState { choice := 1, first := first, demand := [0, 0, 0, 0] }).map
        (fun x => x.1.roads.map (fun y => y.signal))
      = some [Signal.RED, Signal.RED, Signal.RED, Signal.RED] := by
  have hstep : mainStep initialState { choice := 1, first := first, demand := [0, 0, 0, 0] }
      = mainStep initialState { choice := 1, first := 0, demand := [0, 0, 0, 0] } := by
    simp [mainStep]
  rw [hstep]
  refine ⟨?_, ?_, ?_⟩
  · decide
  · decide
  · decide

/-! ## Closed forms on four roads -/

/-- The green time `adaptiveGreen` computes from a demand `v`. -/
theorem adaptiveGreen_four (a b c d : Road) (baseGreen maxExtra : Int) :
    adaptiveGreen [a, b, c, d] baseGreen maxExtra
      = [{ a with greenTime := baseGreen
            + (if Int.tdiv a.vehiclesWaiting 5 > maxExtra then maxExtra
               else Int.tdiv a.vehiclesWaiting 5) },
         { b with greenTime := baseGreen
            + (if Int.tdiv b.vehiclesWaiting 5 > maxExtra then maxExtra
               else Int.tdiv b.vehiclesWaiting 5) },
         { c with greenTime := baseGreen
            + (if Int.tdiv c.vehiclesWaiting 5 > maxExtra then maxExtra
               else Int.tdiv c.vehiclesWaiting 5) },
         { d with greenTime := baseGreen
            + (if Int.tdiv d.vehiclesWaiting 5 > maxExtra then maxExtra
               else Int.tdiv d.vehiclesWaiting 5) }] := by
  simp [adaptiveGreen, range_LANES, rd, updateAt]

theorem applyModeTimings_four (a b c d : Road) (mode : Int) :
    applyModeTimings [a, b, c, d] mode
      = [{ a with yellowTime := 3, greenTime := if mode = 1 then 8 else 12 },
         { b with yellowTime := 3, greenTime := if mode = 1 then 8 else 12 },
         { c with yellowTime := 3, greenTime := if mode = 1 then 8 else 12 },
         { d with yellowTime := 3, greenTime := if mode = 1 then 8 else 12 }] := by
  by_cases hmode : mode = 1 <;> simp [applyModeTimings, range_LANES, updateAt, hmode]

theorem computeRedTimes_four (a b c d : Road) :
    computeRedTimes [a, b, c, d]
      = [{ a with redTime := b.greenTime + b.yellowTime + (c.greenTime + c.yellowTime)
            + (d.greenTime + d.yellowTime) },
         { b with redTime := a.greenTime + a.yellowTime + (c.greenTime + c.yellowTime)
            + (d.greenTime + d.yellowTime) },
         { c with redTime := a.greenTime + a.yellowTime + (b.greenTime + b.yellowTime)
            + (d.greenTime + d.yellowTime) },
         { d with redTime := a.greenTime + a.yellowTime + (b.greenTime + b.yellowTime)
            + (c.greenTime + c.yellowTime) }] := by
  simp [computeRedTimes, range_LANES, rd, updateAt]

/-! ## Timing policy: further theorems -/

/-- C11: Adaptive mode as the menu runs it, `setVehicles` then `adaptiveGreen(roads, 8, 8)`:
for any four entered integers every road gets green time `8 + min(max(d_i, 0) / 5, 8)`,
which lies between 8 and 16 and does not decrease when the entered number grows. -/
theorem adaptive_mode_green (r r2 : List Road) (d d2 : List Int)
    (hr : r.length = LANES) (hr2 : r2.length = LANES)
    (hd : d.length = LANES) (hd2 : d2.length = LANES) (i : Nat) (hi : i < LANES) :
    (rd (adaptiveGreen (setVehicles r d) 8 8) i).greenTime
        = 8 + min (max (d.getD i 0) 0 / 5) 8
      ∧ 8 ≤ (rd (adaptiveGreen (setVehicles r d) 8 8) i).greenTime
      ∧ (rd (adaptiveGreen (setVehicles r d) 8 8) i).greenTime ≤ 16
      ∧ (d.getD i 0 ≤ d2.getD i 0 →
          (rd (adaptiveGreen (setVehicles r d) 8 8) i).greenTime
            ≤ (rd (adaptiveGreen (setVehicles r2 d2) 8 8) i).greenTime)
      ∧ ∀ (order : List Int) (first : Int),
          mainStep { roads := r, order := order } { choice := 3, first := first, demand := d }
            = some ({ roads := (simulateCycle (adaptiveGreen (setVehicles r d) 8 8) order).1,
                      order := order },
                    (simulateCycle (adaptiveGreen (setVehicles r d) 8 8) order).2) := by
  obtain ⟨a, b, c, e, rfl⟩ := length_four r hr
  obtain ⟨a2, b2, c2, e2, rfl⟩ := length_four r2 hr2
  obtain ⟨v0, v1, v2, v3, rfl⟩ := length_four d hd
  obtain ⟨w0, w1, w2, w3, rfl⟩ := length_four d2 hd2
  have key : ∀ v : Int,
      (if Int.tdiv (max v 0) 5 > 8 then (8 : Int) else Int.tdiv (max v 0) 5)
        = min (max v 0 / 5) 8 := by
    intro v
    rw [Int.tdiv_eq_ediv (le_max_right v 0) (by decide)]
    split_ifs <;> omega
  have hi4 : i < 4 := hi
  refine ⟨?_, ?_, ?_, ?_, ?_⟩
  · interval_cases i <;> simp [setVehicles_four, adaptiveGreen_four, rd, key]
  · interval_cases i <;> simp [setVehicles_four, adaptiveGreen_four, rd, key] <;> omega
  · interval_cases i <;> simp [setVehicles_four, adaptiveGreen_four, rd, key] <;> omega
  · interval_cases i <;> simp [setVehicles_four, adaptiveGreen_four, rd, key] <;> omega
  · intro order first
    simp [mainStep]

/-- C13: `applyModeTimings` changes timing fields only: every road keeps its
`vehiclesWaiting`, `signal`, `name` and `redTime`, and the array keeps its four entries. -/
theorem applyModeTimings_frame (r : List Road) (mode : Int) (hr : r.length = LANES)
    (i : Nat) (hi : i < LANES) :
    (applyModeTimings r mode).length = LANES
      ∧ (rd (applyModeTimings r mode) i).vehiclesWaiting = (rd r i).vehiclesWaiting
      ∧ (rd (applyModeTimings r mode) i).signal = (rd r i).signal
      ∧ (rd (applyModeTimings r mode) i).name = (rd r i).name
      ∧ (rd (applyModeTimings r mode) i).redTime = (rd r i).redTime := by
  obtain ⟨a, b, c, d, rfl⟩ := length_four r hr
  have hi4 : i < 4 := hi
  rw [applyModeTimings_four]
  refine ⟨rfl, ?_⟩
  interval_cases i <;> simp [rd]

/-- C15 (amended): `adaptiveGreen` caps the extra above only: for every demand value the
green time is `baseGreen + extra` with `extra = min(vehiclesWaiting / 5, maxExtra)`, the
division truncating toward zero, so `extra <= maxExtra`; `0 <= extra`, and with it
`greenTime >= baseGreen`, holds when the road's `vehiclesWaiting` is not negative. -/
theorem adaptiveGreen_extra_capped (r : List Road) (baseGreen maxExtra : Int)
    (hr : r.length = LANES) (hm : 0 ≤ maxExtra) (i : Nat) (hi : i < LANES) :
    (rd (adaptiveGreen r baseGreen maxExtra) i).greenTime
        = baseGreen + min (Int.tdiv (rd r i).vehiclesWaiting 5) maxExtra
      ∧ min (Int.tdiv (rd r i).vehiclesWaiting 5) maxExtra ≤ maxExtra
      ∧ (0 ≤ (rd r i).vehiclesWaiting →
          0 ≤ min (Int.tdiv (rd r i).vehiclesWaiting 5) maxExtra
            ∧ baseGreen ≤ (rd (adaptiveGreen r baseGreen maxExtra) i).greenTime) := by
  obtain ⟨a, b, c, d, rfl⟩ := length_four r hr
  have key : ∀ v : Int,
      (if Int.tdiv v 5 > maxExtra then maxExtra else Int.tdiv v 5)
        = min (Int.tdiv v 5) maxExtra := by
    intro v
    split_ifs <;> omega
  have hpos : ∀ v : Int, 0 ≤ v → 0 ≤ min (Int.tdiv v 5) maxExtra := by
    intro v hv
    rw [Int.tdiv_eq_ediv hv (by decide)]
    omega
  have hi4 : i < 4 := hi
  have hgt : (rd (adaptiveGreen [a, b, c, d] baseGreen maxExtra) i).greenTime
      = baseGreen + min (Int.tdiv (rd [a, b, c, d] i).vehiclesWaiting 5) maxExtra := by
    rw [adaptiveGreen_four]
    interval_cases i <;> simp [rd, key]
  refine ⟨hgt, min_le_right _ _, ?_⟩
  intro hv
  have h0 := hpos _ hv
  refine ⟨h0, ?_⟩
  rw [hgt]
  omega

/-- C15 as stated fails: a road holding `vehiclesWaiting = -10` gets, with base 8 and
maximal extra 8, the green time 6, below the base, so its extra is not in `[0, 8]`. -/
theorem adaptiveGreen_negative_extra :
    (rd (adaptiveGreen
        [{ name := "North", signal := Signal.RED, greenTime := 8, yellowTime := 3,
           redTime := 0, vehiclesWaiting := -10 },
         { name := "South", signal := Signal.RED, greenTime := 8, yellowTime := 3,
           redTime := 0, vehiclesWaiting := 0 },
         { name := "East", signal := Signal.RED, greenTime := 8, yellowTime := 3,
           redTime := 0, vehiclesWaiting := 0 },
         { name := "West", signal := Signal.RED, greenTime := 8, yellowTime := 3,
           redTime := 0, vehiclesWaiting := 0 }] 8 8) 0).greenTime = 6
      ∧ ¬ ∃ extra : Int, 0 ≤ extra ∧ extra ≤ 8
          ∧ (rd (adaptiveGreen
              [{ name := "North", signal := Signal.RED, greenTime := 8, yellowTime := 3,
                 redTime := 0, vehiclesWaiting := -10 },
               { name := "South", signal := Signal.RED, greenTime := 8, yellowTime := 3,
                 redTime := 0, vehiclesWaiting := 0 },
               { name := "East", signal := Signal.RED, greenTime := 8, yellowTime := 3,
                 redTime := 0, vehiclesWaiting := 0 },
               { name := "West", signal := Signal.RED, greenTime := 8, yellowTime := 3,
                 redTime := 0, vehiclesWaiting := 0 }] 8 8) 0).greenTime = 8 + extra := by
  have h6 : (rd (adaptiveGreen
        [{ name := "North", signal := Signal.RED, greenTime := 8, yellowTime := 3,
           redTime := 0, vehiclesWaiting := -10 },
         { name := "South", signal := Signal.RED, greenTime := 8, yellowTime := 3,
           redTime := 0, vehiclesWaiting := 0 },
         { name := "East", signal := Signal.RED, greenTime := 8, yellowTime := 3,
           redTime := 0, vehiclesWaiting := 0 },
         { name := "West", signal := Signal.RED, greenTime := 8, yellowTime := 3,
           redTime := 0, vehiclesWaiting := 0 }] 8 8) 0).greenTime = 6 := by decide
  refine ⟨h6, ?_⟩
  rintro ⟨extra, h0, _, he⟩
  rw [h6] at he
  omega

/-- C18: `adaptiveGreen` changes `greenTime` only: every road keeps its `yellowTime`,
`vehiclesWaiting`, `signal`, `redTime` and `name`, and the array keeps its four entries. -/
theorem adaptiveGreen_frame (r : List Road) (baseGreen maxExtra : Int)
    (hr : r.length = LANES) (i : Nat) (hi : i < LANES) :
    (adaptiveGreen r baseGreen maxExtra).length = LANES
      ∧ (rd (adaptiveGreen r baseGreen maxExtra) i).yellowTime = (rd r i).yellowTime
      ∧ (rd (adaptiveGreen r baseGreen maxExtra) i).vehiclesWaiting
          = (rd r i).vehiclesWaiting
      ∧ (rd (adaptiveGreen r baseGreen maxExtra) i).signal = (rd r i).signal
      ∧ (rd (adaptiveGreen r baseGreen maxExtra) i).redTime = (rd r i).redTime
      ∧ (rd (adaptiveGreen r baseGreen maxExtra) i).name = (rd r i).name := by
  obtain ⟨a, b, c, d, rfl⟩ := length_four r hr
  have hi4 : i < 4 := hi
  rw [adaptiveGreen_four]
  refine ⟨rfl, ?_⟩
  interval_cases i <;> simp [rd]

/-- C20: after `computeRedTimes` every road's red, green and yellow times add up to the
cycle length `totalGreenTime + totalYellowTime` (the same before and after the call, and
the same for all four roads); with uniform timings `g`, `y` every red time is
`3 * (g + y)`, which is 33 after Normal timings and 45 after Rush timings. -/
theorem computeRedTimes_complement (r : List Road) (hr : r.length = LANES)
    (i : Nat) (hi : i < LANES) :
    (rd (computeRedTimes r) i).redTime + (rd (computeRedTimes r) i).greenTime
        + (rd (computeRedTimes r) i).yellowTime
        = totalGreenTime (computeRedTimes r) + totalYellowTime (computeRedTimes r)
      ∧ totalGreenTime (computeRedTimes r) + totalYellowTime (computeRedTimes r)
        = totalGreenTime r + totalYellowTime r
      ∧ (∀ g y : Int, (∀ x ∈ r, x.greenTime = g ∧ x.yellowTime = y) →
          (rd (computeRedTimes r) i).redTime = 3 * (g + y))
      ∧ (rd (computeRedTimes (applyModeTimings r 1)) i).redTime = 33
      ∧ (rd (computeRedTimes (applyModeTimings r 2)) i).redTime = 45 := by
  obtain ⟨a, b, c, d, rfl⟩ := length_four r hr
  have hi4 : i < 4 := hi
  refine ⟨?_, ?_, ?_, ?_, ?_⟩
  · rw [computeRedTimes_four]
    interval_cases i <;> simp [rd, totalGreenTime, totalYellowTime, range_LANES] <;> ring
  · rw [computeRedTimes_four]
    simp [rd, totalGreenTime, totalYellowTime, range_LANES]
  · intro g y h
    have ha := h a (by simp)
    have hb := h b (by simp)
    have hc := h c (by simp)
    have hd := h d (by simp)
    rw [computeRedTimes_four]
    interval_cases i <;> simp [rd, ha, hb, hc, hd] <;> ring
  · rw [applyModeTimings_four, computeRedTimes_four]
    interval_cases i <;> simp [rd]
  · rw [applyModeTimings_four, computeRedTimes_four]
    interval_cases i <;> simp [rd]

/-! ## Cycle engine: holds -/

theorem countingDown_succ (n : Nat) : countingDown (n + 1) = (n + 1) :: countingDown n := by
  simp [countingDown, List.range'_1_concat, Nat.add_comm]

theorem countingDown_length (n : Nat) : (countingDown n).length = n := by
  simp [countingDown]

theorem tickValues_countdownFrom (phaseName : String) (n : Nat) :
    tickValues (countdownFrom phaseName n) = countingDown n := by
  induction n with
  | zero => rfl
  | succ n ih =>
    rw [countingDown_succ, ← ih]
    rfl

theorem tickValues_countdownPrint (phaseName : String) (sec : Int) :
    tickValues (countdownPrint phaseName sec) = countingDown sec.toNat := by
  simp [countdownPrint, tickValues, List.filterMap_append]
  exact tickValues_countdownFrom phaseName sec.toNat

theorem waits_append (idx : Int) (s t : List Obs) :
    waits idx (s ++ t) = waits idx s ++ waits idx t := by
  simp [waits, List.filterMap_append]

theorem waits_cons (idx : Int) (o : Obs) (t : List Obs) :
    waits idx (o :: t) = waits idx [o] ++ waits idx t :=
  waits_append idx [o] t

theorem waits_observe_countdownFrom (idx : Int) (r : List Road) (phaseName : String)
    (n : Nat) :
    waits idx (observe r (countdownFrom phaseName n))
      = (countingDown n).map (fun k => (phaseName, (rdInt r idx).signal, k)) := by
  induction n with
  | zero => rfl
  | succ n ih =>
    rw [countingDown_succ, List.map_cons, ← ih]
    rfl

/-- The waits of the events of one hold: the announcement, the status table, the countdown. -/
theorem waits_observe_hold (idx : Int) (r : List Road) (name phaseName : String)
    (s : Signal) (sec : Int) :
    waits idx (observe r ([Event.phase name s, Event.status] ++ countdownPrint phaseName sec))
      = (countingDown sec.toNat).map (fun k => (phaseName, (rdInt r idx).signal, k)) := by
  have h1 : observe r ([Event.phase name s, Event.status] ++ countdownPrint phaseName sec)
      = observe r [Event.phase name s, Event.status]
        ++ (observe r (countdownFrom phaseName sec.toNat)
          ++ observe r [Event.done phaseName]) := by
    simp [observe, countdownPrint]
  rw [h1, waits_append, waits_append, waits_observe_countdownFrom]
  simp [waits, observe]

theorem waits_reset (idx : Int) (r : List Road) (hr : r.length = LANES) :
    waits idx (resetSignalsToRed r).2 = [] := by
  obtain ⟨a, b, c, d, rfl⟩ := length_four r hr
  simp [resetSignalsToRed_four, waits]

theorem onlyActive_of_set (r : List Road) (idx : Int) (s : Signal)
    (hr : r.length = LANES) (h0 : 0 ≤ idx) (h3 : idx ≤ 3) :
    onlyActive (updateAtInt (r.map (withSignal Signal.RED)) idx (withSignal s)) idx s := by
  obtain ⟨a, b, c, d, rfl⟩ := length_four r hr
  rcases index_cases idx h0 h3 with h | h | h | h <;> subst h <;>
    refine ⟨by simp [updateAtInt, updateAt, rdInt, rd, withSignal], ?_⟩ <;>
    intro j hj hne <;>
    have hj4 : j < 4 := hj <;>
    interval_cases j <;>
    simp [updateAtInt, updateAt, rd, withSignal] at hne ⊢

/-- The waits of one phase: the countdown of the green time with road `idx` GREEN, then
the countdown of the yellow time with road `idx` YELLOW. -/
theorem simulateOneRoadPhase_waits (r : List Road) (idx : Int) (hr : r.length = LANES)
    (h0 : 0 ≤ idx) (h3 : idx ≤ 3) :
    waits idx (simulateOneRoadPhase r idx).2
      = (countingDown (rdInt r idx).greenTime.toNat).map
          (fun k => ("GREEN", Signal.GREEN, k))
        ++ (countingDown (rdInt r idx).yellowTime.toNat).map
          (fun k => ("YELLOW", Signal.YELLOW, k)) := by
  have hG := (onlyActive_of_set r idx Signal.GREEN hr h0 h3).1
  have hY := (onlyActive_of_set r idx Signal.YELLOW hr h0 h3).1
  rw [simulateOneRoadPhase_eq r idx hr h0 h3]
  simp only [waits_append, waits_reset idx r hr, List.nil_append]
  rw [waits_cons, waits_observe_hold, waits_cons _ _ (observe _ _), waits_observe_hold,
    hG, hY]
  simp [waits]

/-- C17: with non-negative green and yellow time of road `idx`, one phase issues exactly
`greenTime[idx]` one-second waits while road `idx` is GREEN, counting down from
`greenTime[idx]` to 1, followed by exactly `yellowTime[idx]` waits while it is YELLOW;
`countdownPrint(sec)` waits `sec` times, showing `sec, sec-1, ..., 1`, and never when
`sec <= 0`. -/
theorem phase_hold_durations (r : List Road) (idx : Int) (hr : r.length = LANES)
    (h0 : 0 ≤ idx) (h3 : idx ≤ 3) (hg : 0 ≤ (rdInt r idx).greenTime)
    (hy : 0 ≤ (rdInt r idx).yellowTime) :
    waits idx (simulateOneRoadPhase r idx).2
        = (countingDown (rdInt r idx).greenTime.toNat).map
            (fun k => ("GREEN", Signal.GREEN, k))
          ++ (countingDown (rdInt r idx).yellowTime.toNat).map
            (fun k => ("YELLOW", Signal.YELLOW, k))
      ∧ (((waits idx (simulateOneRoadPhase r idx).2).filter
            (fun w => w.2.1 = Signal.GREEN)).length : Int) = (rdInt r idx).greenTime
      ∧ (((waits idx (simulateOneRoadPhase r idx).2).filter
            (fun w => w.2.1 = Signal.YELLOW)).length : Int) = (rdInt r idx).yellowTime
      ∧ ∀ (phaseName : String) (sec : Int),
          tickValues (countdownPrint phaseName sec) = countingDown sec.toNat
            ∧ (0 ≤ sec → ((tickValues (countdownPrint phaseName sec)).length : Int) = sec)
            ∧ (sec ≤ 0 → tickValues (countdownPrint phaseName sec) = []) := by
  have hw := simulateOneRoadPhase_waits r idx hr h0 h3
  refine ⟨hw, ?_, ?_, ?_⟩
  · rw [hw]
    simp [List.filter_append, List.filter_map, Function.comp_def, countingDown_length,
      Int.toNat_of_nonneg hg]
  · rw [hw]
    simp [List.filter_append, List.filter_map, Function.comp_def, countingDown_length,
      Int.toNat_of_nonneg hy]
  · intro phaseName sec
    rw [tickValues_countdownPrint]
    refine ⟨rfl, ?_, ?_⟩
    · intro hs
      rw [countingDown_length, Int.toNat_of_nonneg hs]
    · intro hs
      rw [Int.toNat_eq_zero.mpr hs]
      rfl

theorem statusSnapshots_append (s t : List Obs) :
    statusSnapshots (s ++ t) = statusSnapshots s ++ statusSnapshots t := by
  simp [statusSnapshots, List.filterMap_append]

theorem statusSnapshots_cons (o : Obs) (t : List Obs) :
    statusSnapshots (o :: t) = statusSnapshots [o] ++ statusSnapshots t :=
  statusSnapshots_append [o] t

theorem statusSnapshots_countdownFrom (r : List Road) (phaseName : String) (n : Nat) :
    statusSnapshots (observe r (countdownFrom phaseName n)) = [] := by
  induction n with
  | zero => rfl
  | succ n ih =>
    rw [countdownFrom, observe, List.map_cons, statusSnapshots_cons, ← observe, ih]
    rfl

theorem statusSnapshots_observe_hold (r : List Road) (name phaseName : String)
    (s : Signal) (sec : Int) :
    statusSnapshots
        (observe r ([Event.phase name s, Event.status] ++ countdownPrint phaseName sec))
      = [r] := by
  have h1 : observe r ([Event.phase name s, Event.status] ++ countdownPrint phaseName sec)
      = observe r [Event.phase name s, Event.status]
        ++ (observe r (countdownFrom phaseName sec.toNat)
          ++ observe r [Event.done phaseName]) := by
    simp [observe, countdownPrint]
  rw [h1, statusSnapshots_append, statusSnapshots_append, statusSnapshots_countdownFrom]
  simp [statusSnapshots, observe]

theorem statusSnapshots_reset (r : List Road) (hr : r.length = LANES) :
    statusSnapshots (resetSignalsToRed r).2 = [] := by
  obtain ⟨a, b, c, d, rfl⟩ := length_four r hr
  simp [resetSignalsToRed_four, statusSnapshots]

theorem countdownPrint_events (phaseName : String) (sec : Int) :
    ∀ e ∈ countdownPrint phaseName sec,
      e = Event.done phaseName ∨ ∃ n, e = Event.tick phaseName n := by
  have hfrom : ∀ n : Nat, ∀ e ∈ countdownFrom phaseName n, ∃ k, e = Event.tick phaseName k := by
    intro n
    induction n with
    | zero => simp [countdownFrom]
    | succ n ih =>
      intro e he
      simp only [countdownFrom, List.mem_cons] at he
      rcases he with rfl | he
      · exact ⟨n + 1, rfl⟩
      · exact ih e he
  intro e he
  simp only [countdownPrint, List.mem_append, List.mem_singleton] at he
  rcases he with he | rfl
  · exact Or.inr (hfrom _ e he)
  · exact Or.inl rfl

/-- In one phase, an observation whose event is a tick labelled `phaseName` either lies in
the hold of the GREEN state with `phaseName = "GREEN"` or in the hold of the YELLOW state
with `phaseName = "YELLOW"`. -/
theorem simulateOneRoadPhase_tick_state (r : List Road) (idx : Int) (hr : r.length = LANES)
    (h0 : 0 ≤ idx) (h3 : idx ≤ 3) (o : Obs) (phaseName : String) (n : Nat)
    (ho : o ∈ (simulateOneRoadPhase r idx).2) (he : o.event = Event.tick phaseName n) :
    (phaseName = "GREEN"
        ∧ o.roads = updateAtInt (r.map (withSignal Signal.RED)) idx (withSignal Signal.GREEN))
      ∨ (phaseName = "YELLOW"
        ∧ o.roads
          = updateAtInt (r.map (withSignal Signal.RED)) idx (withSignal Signal.YELLOW)) := by
  rw [simulateOneRoadPhase_eq r idx hr h0 h3] at ho
  simp only [List.mem_append, List.mem_cons, mem_observe, List.mem_singleton,
    List.not_mem_nil, or_false, false_or, List.cons_append, List.nil_append] at ho
  rcases ho with ((ho | ho | ⟨hroads, ho⟩) | ho | ⟨hroads, ho⟩) | ho
  · have hred := resetSignalsToRed_assignsRed r hr o ho
    rw [he] at hred
    simp [Event.assignsRed] at hred
  · rw [ho] at he
    simp at he
  · rcases ho with ho | ho | ho
    · rw [ho] at he
      simp at he
    · rw [ho] at he
      simp at he
    · rcases countdownPrint_events _ _ _ ho with h | ⟨k, h⟩
      · rw [h] at he
        simp at he
      · rw [h] at he
        simp only [Event.tick.injEq] at he
        exact Or.inl ⟨he.1.symm, hroads⟩
  · rw [ho] at he
    simp at he
  · rcases ho with ho | ho | ho
    · rw [ho] at he
      simp at he
    · rw [ho] at he
      simp at he
    · rcases countdownPrint_events _ _ _ ho with h | ⟨k, h⟩
      · rw [h] at he
        simp at he
      · rw [h] at he
        simp only [Event.tick.injEq] at he
        exact Or.inr ⟨he.1.symm, hroads⟩
  · rw [ho] at he
    simp at he

/-- C14: whatever the signals were before, a phase of road `idx` shows exactly two status
tables: the first, and every wait of the GREEN countdown, with road `idx` GREEN and the
three other roads RED; the second, and every wait of the YELLOW countdown, with road `idx`
YELLOW and the three other roads RED. -/
theorem phase_start_forces_exclusion (r : List Road) (idx : Int) (hr : r.length = LANES)
    (h0 : 0 ≤ idx) (h3 : idx ≤ 3) :
    ∃ G Y : List Road,
      statusSnapshots (simulateOneRoadPhase r idx).2 = [G, Y]
        ∧ onlyActive G idx Signal.GREEN ∧ onlyActive Y idx Signal.YELLOW
        ∧ (∀ o ∈ (simulateOneRoadPhase r idx).2, ∀ n : Nat,
            o.event = Event.tick "GREEN" n → o.roads = G)
        ∧ (∀ o ∈ (simulateOneRoadPhase r idx).2, ∀ n : Nat,
            o.event = Event.tick "YELLOW" n → o.roads = Y) := by
  refine ⟨updateAtInt (r.map (withSignal Signal.RED)) idx (withSignal Signal.GREEN),
    updateAtInt (r.map (withSignal Signal.RED)) idx (withSignal Signal.YELLOW),
    ?_, onlyActive_of_set r idx Signal.GREEN hr h0 h3,
    onlyActive_of_set r idx Signal.YELLOW hr h0 h3, ?_, ?_⟩
  · rw [simulateOneRoadPhase_eq r idx hr h0 h3]
    simp only [statusSnapshots_append, statusSnapshots_reset r hr, List.nil_append]
    rw [statusSnapshots_cons, statusSnapshots_observe_hold,
      statusSnapshots_cons _ (observe _ _), statusSnapshots_observe_hold]
    simp [statusSnapshots]
  · intro o ho n he
    rcases simulateOneRoadPhase_tick_state r idx hr h0 h3 o "GREEN" n ho he with h | h
    · exact h.2
    · exact absurd h.1 (by decide)
  · intro o ho n he
    rcases simulateOneRoadPhase_tick_state r idx hr h0 h3 o "YELLOW" n ho he with h | h
    · exact absurd h.1 (by decide)
    · exact h.2

/-! ## Fields left alone -/

theorem updateAt_map {β : Type} (g : Road → β) (f : Road → Road)
    (h : ∀ x, g (f x) = g x) (r : List Road) (i : Nat) :
    (updateAt r i f).map g = r.map g := by
  induction r generalizing i with
  | nil => rfl
  | cons x xs ih =>
    cases i with
    | zero => simp [updateAt, h]
    | succ n => simp [updateAt, ih]

theorem foldl_map_inv {β : Type} (g : Road → β) (step : List Road → Nat → List Road)
    (h : ∀ r i, (step r i).map g = r.map g) (l : List Nat) (r : List Road) :
    (l.foldl step r).map g = r.map g := by
  induction l generalizing r with
  | nil => rfl
  | cons i l ih => rw [List.foldl_cons, ih, h]

theorem length_of_map_eq {β : Type} (g : Road → β) (r1 r2 : List Road)
    (h : r1.map g = r2.map g) : r1.length = r2.length := by
  have h2 := congrArg List.length h
  simpa using h2

theorem setVehicles_map {β : Type} (g : Road → β)
    (hg : ∀ (x : Road) (v : Int), g { x with vehiclesWaiting := v } = g x)
    (r : List Road) (input : List Int) : (setVehicles r input).map g = r.map g := by
  unfold setVehicles
  apply foldl_map_inv
  intro r i
  dsimp only
  cases input.get? i with
  | none =>
    dsimp only
    split_ifs
    · exact updateAt_map g _ (fun x => hg x 0) r i
    · rfl
  | some v =>
    dsimp only
    split_ifs
    · rw [updateAt_map g _ (fun x => hg x 0), updateAt_map g _ (fun x => hg x v)]
    · exact updateAt_map g _ (fun x => hg x v) r i

theorem applyModeTimings_map {β : Type} (g : Road → β)
    (hy : ∀ (x : Road) (v : Int), g { x with yellowTime := v } = g x)
    (hgr : ∀ (x : Road) (v : Int), g { x with greenTime := v } = g x)
    (r : List Road) (mode : Int) : (applyModeTimings r mode).map g = r.map g := by
  unfold applyModeTimings
  apply foldl_map_inv
  intro r i
  dsimp only
  split_ifs
  · rw [updateAt_map g _ (fun x => hgr x 8), updateAt_map g _ (fun x => hy x 3)]
  · rw [updateAt_map g _ (fun x => hgr x 12), updateAt_map g _ (fun x => hy x 3)]

theorem adaptiveGreen_map {β : Type} (g : Road → β)
    (hgr : ∀ (x : Road) (v : Int), g { x with greenTime := v } = g x)
    (r : List Road) (baseGreen maxExtra : Int) :
    (adaptiveGreen r baseGreen maxExtra).map g = r.map g := by
  unfold adaptiveGreen
  apply foldl_map_inv
  intro r i
  exact updateAt_map g _ (fun x => hgr x _) r i

theorem computeRedTimes_map {β : Type} (g : Road → β)
    (hred : ∀ (x : Road) (v : Int), g { x with redTime := v } = g x)
    (r : List Road) : (computeRedTimes r).map g = r.map g := by
  unfold computeRedTimes
  apply foldl_map_inv
  intro r i
  exact updateAt_map g _ (fun x => hred x _) r i

theorem allRed_of_map_signal (r1 r2 : List Road)
    (h : r1.map (fun x => x.signal) = r2.map (fun x => x.signal)) (hall : allRed r2) :
    allRed r1 := by
  intro x hx
  have hmem : x.signal ∈ r1.map (fun x => x.signal) := List.mem_map.mpr ⟨x, hx, rfl⟩
  rw [h] at hmem
  obtain ⟨y, hy, hxy⟩ := List.mem_map.mp hmem
  rw [← hxy]
  exact hall y hy

theorem map_withSignal_map {β : Type} (g : Road → β)
    (hs : ∀ (s : Signal) (x : Road), g (withSignal s x) = g x) (s : Signal) (r : List Road) :
    (r.map (withSignal s)).map g = r.map g := by
  simp [List.map_map, Function.comp_def, hs]

theorem updateAtInt_map {β : Type} (g : Road → β) (f : Road → Road)
    (h : ∀ x, g (f x) = g x) (r : List Road) (idx : Int) :
    (updateAtInt r idx f).map g = r.map g := by
  unfold updateAtInt
  split_ifs
  · rfl
  · exact updateAt_map g f h r _

theorem resetSignalsToRed_trace_map {β : Type} (g : Road → β)
    (hs : ∀ (s : Signal) (x : Road), g (withSignal s x) = g x)
    (r : List Road) (hr : r.length = LANES) :
    ∀ o ∈ (resetSignalsToRed r).2, o.roads.map g = r.map g := by
  obtain ⟨a, b, c, d, rfl⟩ := length_four r hr
  simp [resetSignalsToRed_four, hs]

/-- During a phase the fields other than `signal` are the same in every observed state. -/
theorem simulateOneRoadPhase_trace_map {β : Type} (g : Road → β)
    (hs : ∀ (s : Signal) (x : Road), g (withSignal s x) = g x)
    (r : List Road) (idx : Int) (hr : r.length = LANES) (h0 : 0 ≤ idx) (h3 : idx ≤ 3) :
    ∀ o ∈ (simulateOneRoadPhase r idx).2, o.roads.map g = r.map g := by
  intro o ho
  have hR := map_withSignal_map g hs Signal.RED r
  have hG := (updateAtInt_map g (withSignal Signal.GREEN) (hs Signal.GREEN)
    (r.map (withSignal Signal.RED)) idx).trans hR
  have hY := (updateAtInt_map g (withSignal Signal.YELLOW) (hs Signal.YELLOW)
    (r.map (withSignal Signal.RED)) idx).trans hR
  rw [simulateOneRoadPhase_eq r idx hr h0 h3] at ho
  simp only [List.mem_append, List.mem_cons, mem_observe, List.mem_singleton,
    List.not_mem_nil, or_false] at ho
  rcases ho with ((ho | ho | ho) | ho | ho) | ho
  · exact resetSignalsToRed_trace_map g hs r hr o ho
  · rw [ho]
    exact hG
  · rw [ho.1]
    exact hG
  · rw [ho]
    exact hY
  · rw [ho.1]
    exact hY
  · rw [ho]
    exact hR

/-- The roads a cycle returns: the red times recomputed and every signal RED. -/
theorem simulateCycle_roads (r : List Road) (k0 k1 k2 k3 : Int) (hr : r.length = LANES)
    (h : ∀ k ∈ [k0, k1, k2, k3], 0 ≤ k ∧ k ≤ 3) :
    (simulateCycle r [k0, k1, k2, k3]).1
      = (computeRedTimes r).map (withSignal Signal.RED) := by
  simp only [simulateCycle, phaseLoop_eq _ k0 k1 k2 k3 (computeRedTimes_length r hr) h]

/-- During a cycle the fields other than `signal` and `redTime` are the same in every
observed state. -/
theorem simulateCycle_trace_map {β : Type} (g : Road → β)
    (hs : ∀ (s : Signal) (x : Road), g (withSignal s x) = g x)
    (hred : ∀ (x : Road) (v : Int), g { x with redTime := v } = g x)
    (r : List Road) (k0 k1 k2 k3 : Int) (hr : r.length = LANES)
    (h : ∀ k ∈ [k0, k1, k2, k3], 0 ≤ k ∧ k ≤ 3) :
    ∀ o ∈ (simulateCycle r [k0, k1, k2, k3]).2, o.roads.map g = r.map g := by
  intro o ho
  have hc := computeRedTimes_length r hr
  have hcm := computeRedTimes_map g hred r
  have hR : ((computeRedTimes r).map (withSignal Signal.RED)).length = LANES := by
    simpa using hc
  have hRm := (map_withSignal_map g hs Signal.RED (computeRedTimes r)).trans hcm
  have b0 := h k0 (by simp)
  have b1 := h k1 (by simp)
  have b2 := h k2 (by simp)
  have b3 := h k3 (by simp)
  simp only [simulateCycle, phaseLoop_eq _ k0 k1 k2 k3 hc h, List.mem_append,
    mem_observe] at ho
  rcases ho with (ho | ((ho | ho) | ho) | ho) | ho
  · rw [ho.1]
    exact hcm
  · exact (simulateOneRoadPhase_trace_map g hs _ k0 hc b0.1 b0.2 o ho).trans hcm
  · exact (simulateOneRoadPhase_trace_map g hs _ k1 hR b1.1 b1.2 o ho).trans hRm
  · exact (simulateOneRoadPhase_trace_map g hs _ k2 hR b2.1 b2.2 o ho).trans hRm
  · exact (simulateOneRoadPhase_trace_map g hs _ k3 hR b3.1 b3.2 o ho).trans hRm
  · rw [ho.1]
    exact hRm

/-- The transitions of a whole cycle are those of its phase loop. -/
theorem simulateCycle_transitions (r : List Road) (k0 k1 k2 k3 : Int)
    (hr : r.length = LANES) (h : ∀ k ∈ [k0, k1, k2, k3], 0 ≤ k ∧ k ≤ 3) :
    transitions (simulateCycle r [k0, k1, k2, k3]).2
      = initialResets (computeRedTimes r) ++ servedInOrder [k0, k1, k2, k3] := by
  have hc := computeRedTimes_length r hr
  simp only [simulateCycle, transitions_append]
  rw [transitions_observe _ _ (by simp [Event.isAssign]),
    transitions_observe _ _ (by simp [Event.isAssign]),
    phaseLoop_transitions_eq _ k0 k1 k2 k3 hc h]
  simp

/-! ## Menu loop: invariants -/

theorem perm_range (order : List Int) (hp : order.Perm [0, 1, 2, 3]) :
    order.length = LANES ∧ ∀ k ∈ order, 0 ≤ k ∧ k ≤ 3 := by
  refine ⟨hp.length_eq, ?_⟩
  intro k hk
  have hk2 := hp.subset hk
  simp only [List.mem_cons, List.mem_singleton, List.not_mem_nil, or_false] at hk2
  omega

/-- The manual-override branch always builds an order: no array is indexed outside its
bounds, `pos` ends at 4 and the order is a permutation of the road indices. -/
theorem manualOrder_total (order : List Int) (first : Int) (ho : order.length = LANES) :
    ∃ o, manualOrder order first = some (o, 4) ∧ o.Perm [0, 1, 2, 3] := by
  obtain ⟨o0, o1, o2, o3, rfl⟩ := length_four order ho
  by_cases hout : first < 0 ∨ first > 3
  · refine ⟨[0, 1, 2, 3], ?_, List.Perm.refl _⟩
    simp only [manualOrder, hout, if_true]
    rfl
  · have h0 : 0 ≤ first := by omega
    have h3 : first ≤ 3 := by omega
    rcases index_cases first h0 h3 with h | h | h | h <;> subst h
    · exact ⟨[0, 1, 2, 3], rfl, by decide⟩
    · exact ⟨[1, 0, 2, 3], rfl, by decide⟩
    · exact ⟨[2, 0, 1, 3], rfl, by decide⟩
    · exact ⟨[3, 0, 1, 2], rfl, by decide⟩

theorem keep_shape (r1 r2 : List Road)
    (h : r1.map (fun x => x.signal) = r2.map (fun x => x.signal))
    (hr : r2.length = LANES) (hall : allRed r2) : r1.length = LANES ∧ allRed r1 :=
  ⟨(length_of_map_eq _ r1 r2 h).trans hr, allRed_of_map_signal r1 r2 h hall⟩

/-- A cycle run on four RED roads in an order that is a permutation: it returns four RED
roads and its transitions are exactly the roads served in that order. -/
theorem cycle_facts (r : List Road) (order : List Int) (hr : r.length = LANES)
    (hall : allRed r) (hp : order.Perm [0, 1, 2, 3]) :
    (simulateCycle r order).1.length = LANES ∧ allRed (simulateCycle r order).1
      ∧ transitions (simulateCycle r order).2 = servedInOrder order := by
  obtain ⟨hlen, hrange⟩ := perm_range order hp
  obtain ⟨k0, k1, k2, k3, rfl⟩ := length_four order hlen
  have hc := computeRedTimes_length r hr
  have hcs := keep_shape (computeRedTimes r) r
    (computeRedTimes_map (fun x => x.signal) (fun _ _ => rfl) r) hr hall
  rw [simulateCycle_roads r k0 k1 k2 k3 hr hrange,
    simulateCycle_transitions r k0 k1 k2 k3 hr hrange,
    initialResets_of_allRed _ hc hcs.2]
  exact ⟨by simpa using hc, allRed_map_red _, rfl⟩

theorem mainStep_normal (st : MainState) (inp : MenuInput) (h : inp.choice = 1) :
    mainStep st inp
      = some ({ roads := (simulateCycle
                  (setVehicles (applyModeTimings st.roads 1) inp.demand) st.order).1,
                order := st.order },
              (simulateCycle
                  (setVehicles (applyModeTimings st.roads 1) inp.demand) st.order).2) := by
  simp [mainStep, h]

theorem mainStep_rush (st : MainState) (inp : MenuInput) (h : inp.choice = 2) :
    mainStep st inp
      = some ({ roads := (simulateCycle
                  (setVehicles (applyModeTimings st.roads 2) inp.demand) st.order).1,
                order := st.order },
              (simulateCycle
                  (setVehicles (applyModeTimings st.roads 2) inp.demand) st.order).2) := by
  simp [mainStep, h]

theorem mainStep_adaptive (st : MainState) (inp : MenuInput) (h : inp.choice = 3) :
    mainStep st inp
      = some ({ roads := (simulateCycle
                  (adaptiveGreen (setVehicles st.roads inp.demand) 8 8) st.order).1,
                order := st.order },
              (simulateCycle
                  (adaptiveGreen (setVehicles st.roads inp.demand) 8 8) st.order).2) := by
  simp [mainStep, h]

theorem mainStep_manual (st : MainState) (inp : MenuInput) (h : inp.choice = 4)
    (o : List Int) (pos : Int) (ho : manualOrder st.order inp.first = some (o, pos)) :
    mainStep st inp
      = some ({ roads := (simulateCycle
                  (applyModeTimings (setVehicles st.roads inp.demand) 1) o).1,
                order := o },
              (simulateCycle
                  (applyModeTimings (setVehicles st.roads inp.demand) 1) o).2) := by
  simp [mainStep, h, ho]

theorem mainStep_invalid (st : MainState) (inp : MenuInput) (h1 : inp.choice ≠ 1)
    (h2 : inp.choice ≠ 2) (h3 : inp.choice ≠ 3) (h4 : inp.choice ≠ 4)
    (h5 : inp.choice ≠ 5) :
    mainStep st inp = some (st, observe st.roads [Event.pause 2]) := by
  simp [mainStep, h1, h2, h3, h4, h5]

/-- A step on a choice other than 4 and 5 returns and keeps the order. -/
theorem mainStep_keeps_order (st : MainState) (inp : MenuInput)
    (h4 : inp.choice ≠ 4) (h5 : inp.choice ≠ 5) :
    ∃ st1 t1, mainStep st inp = some (st1, t1) ∧ st1.order = st.order := by
  by_cases h1 : inp.choice = 1
  · exact ⟨_, _, mainStep_normal st inp h1, rfl⟩
  by_cases h2 : inp.choice = 2
  · exact ⟨_, _, mainStep_rush st inp h2, rfl⟩
  by_cases h3 : inp.choice = 3
  · exact ⟨_, _, mainStep_adaptive st inp h3, rfl⟩
  · exact ⟨_, _, mainStep_invalid st inp h1 h2 h3 h4 h5, rfl⟩

theorem runSteps_keeps_order (st : MainState) (inps : List MenuInput)
    (h : ∀ inp ∈ inps, inp.choice ≠ 4 ∧ inp.choice ≠ 5) :
    ∃ st1 t1, runSteps st inps = some (st1, t1) ∧ st1.order = st.order := by
  induction inps generalizing st with
  | nil => exact ⟨st, [], rfl, rfl⟩
  | cons inp rest ih =>
    have hi := h inp (by simp)
    obtain ⟨st1, t1, e1, o1⟩ := mainStep_keeps_order st inp hi.1 hi.2
    obtain ⟨st2, t2, e2, o2⟩ := ih st1 (fun x hx => h x (by simp [hx]))
    exact ⟨st2, t1 ++ t2, by simp [runSteps, e1, e2], o2.trans o1⟩

/-- A step from a well-formed state on a choice other than 5 returns a well-formed state;
on choices 1 to 4 the transitions of its trace are the roads served in the order the
state then holds. -/
theorem mainStep_wellFormed (st : MainState) (inp : MenuInput) (hw : wellFormed st)
    (h5 : inp.choice ≠ 5) :
    ∃ st1 t1, mainStep st inp = some (st1, t1) ∧ wellFormed st1
      ∧ (inp.choice ∈ [(1 : Int), 2, 3, 4] → transitions t1 = servedInOrder st1.order) := by
  obtain ⟨hr, hall, hp⟩ := hw
  have hsv : ∀ r d, (setVehicles r d).map (fun x => x.signal) = r.map (fun x => x.signal) :=
    fun r d => setVehicles_map (fun x => x.signal) (fun _ _ => rfl) r d
  have ham : ∀ r m, (applyModeTimings r m).map (fun x => x.signal)
      = r.map (fun x => x.signal) :=
    fun r m => applyModeTimings_map (fun x => x.signal) (fun _ _ => rfl) (fun _ _ => rfl) r m
  have hag : ∀ r b m, (adaptiveGreen r b m).map (fun x => x.signal)
      = r.map (fun x => x.signal) :=
    fun r b m => adaptiveGreen_map (fun x => x.signal) (fun _ _ => rfl) r b m
  by_cases h1 : inp.choice = 1
  · have hs := keep_shape (setVehicles (applyModeTimings st.roads 1) inp.demand) st.roads
      ((hsv _ _).trans (ham _ _)) hr hall
    obtain ⟨c1, c2, c3⟩ := cycle_facts _ st.order hs.1 hs.2 hp
    exact ⟨_, _, mainStep_normal st inp h1, ⟨c1, c2, hp⟩, fun _ => c3⟩
  by_cases h2 : inp.choice = 2
  · have hs := keep_shape (setVehicles (applyModeTimings st.roads 2) inp.demand) st.roads
      ((hsv _ _).trans (ham _ _)) hr hall
    obtain ⟨c1, c2, c3⟩ := cycle_facts _ st.order hs.1 hs.2 hp
    exact ⟨_, _, mainStep_rush st inp h2, ⟨c1, c2, hp⟩, fun _ => c3⟩
  by_cases h3 : inp.choice = 3
  · have hs := keep_shape (adaptiveGreen (setVehicles st.roads inp.demand) 8 8) st.roads
      ((hag _ _ _).trans (hsv _ _)) hr hall
    obtain ⟨c1, c2, c3⟩ := cycle_facts _ st.order hs.1 hs.2 hp
    exact ⟨_, _, mainStep_adaptive st inp h3, ⟨c1, c2, hp⟩, fun _ => c3⟩
  by_cases h4 : inp.choice = 4
  · obtain ⟨o, ho, hpo⟩ := manualOrder_total st.order inp.first hp.length_eq
    have hs := keep_shape (applyModeTimings (setVehicles st.roads inp.demand) 1) st.roads
      ((ham _ _).trans (hsv _ _)) hr hall
    obtain ⟨c1, c2, c3⟩ := cycle_facts _ o hs.1 hs.2 hpo
    exact ⟨_, _, mainStep_manual st inp h4 o 4 ho, ⟨c1, c2, hpo⟩, fun _ => c3⟩
  · refine ⟨st, observe st.roads [Event.pause 2], mainStep_invalid st inp h1 h2 h3 h4 h5,
      ⟨hr, hall, hp⟩, ?_⟩
    intro hmem
    simp only [List.mem_cons, List.mem_singleton, List.not_mem_nil, or_false] at hmem
    rcases hmem with h | h | h | h
    · exact absurd h h1
    · exact absurd h h2
    · exact absurd h h3
    · exact absurd h h4

theorem runSteps_wellFormed (st : MainState) (inps : List MenuInput) (hw : wellFormed st)
    (h : ∀ inp ∈ inps, inp.choice ≠ 5) :
    ∃ st1 t1, runSteps st inps = some (st1, t1) ∧ wellFormed st1 := by
  induction inps generalizing st with
  | nil => exact ⟨st, [], rfl, hw⟩
  | cons inp rest ih =>
    obtain ⟨st1, t1, e1, w1, _⟩ := mainStep_wellFormed st inp hw (h inp (by simp))
    obtain ⟨st2, t2, e2, w2⟩ := ih st1 w1 (fun x hx => h x (by simp [hx]))
    exact ⟨st2, t1 ++ t2, by simp [runSteps, e1, e2], w2⟩

theorem initialState_wellFormed : wellFormed initialState :=
  ⟨rfl, by decide, by decide⟩

/-! ## Menu loop: theorems -/

/-- C12: after a step with choice 4 and first road `f`, any number of later steps with a
choice other than 4 (and other than 5, which leaves the loop) return with the order
unchanged, and the next step with choice 1, 2 or 3 runs its cycle in that overridden
order, while an invalid choice runs no cycle and changes nothing. -/
theorem manual_order_persists (st : MainState) (f : Int) (d : List Int)
    (later : List MenuInput) (ho : st.order.length = LANES)
    (hl : ∀ inp ∈ later, inp.choice ≠ 4 ∧ inp.choice ≠ 5) :
    ∃ st1 t1 st2 t2,
      mainStep st { choice := 4, first := f, demand := d } = some (st1, t1)
        ∧ runSteps st1 later = some (st2, t2)
        ∧ st2.order = st1.order
        ∧ (∀ inp : MenuInput, inp.choice = 1 →
            mainStep st2 inp
              = some ({ roads := (simulateCycle
                          (setVehicles (applyModeTimings st2.roads 1) inp.demand)
                          st1.order).1,
                        order := st1.order },
                      (simulateCycle
                          (setVehicles (applyModeTimings st2.roads 1) inp.demand)
                          st1.order).2))
        ∧ (∀ inp : MenuInput, inp.choice = 2 →
            mainStep st2 inp
              = some ({ roads := (simulateCycle
                          (setVehicles (applyModeTimings st2.roads 2) inp.demand)
                          st1.order).1,
                        order := st1.order },
                      (simulateCycle
                          (setVehicles (applyModeTimings st2.roads 2) inp.demand)
                          st1.order).2))
        ∧ (∀ inp : MenuInput, inp.choice = 3 →
            mainStep st2 inp
              = some ({ roads := (simulateCycle
                          (adaptiveGreen (setVehicles st2.roads inp.demand) 8 8)
                          st1.order).1,
                        order := st1.order },
                      (simulateCycle
                          (adaptiveGreen (setVehicles st2.roads inp.demand) 8 8)
                          st1.order).2))
        ∧ (∀ inp : MenuInput, inp.choice ≠ 1 → inp.choice ≠ 2 → inp.choice ≠ 3 →
            inp.choice ≠ 4 → inp.choice ≠ 5 →
            mainStep st2 inp = some (st2, observe st2.roads [Event.pause 2])) := by
  obtain ⟨o, hmo, _⟩ := manualOrder_total st.order f ho
  obtain ⟨st1, t1, e1⟩ : ∃ st1 t1,
      mainStep st { choice := 4, first := f, demand := d } = some (st1, t1) :=
    ⟨_, _, mainStep_manual st { choice := 4, first := f, demand := d } rfl o 4 hmo⟩
  obtain ⟨st2, t2, e2, o2⟩ := runSteps_keeps_order st1 later hl
  refine ⟨st1, t1, st2, t2, e1, e2, o2, ?_, ?_, ?_, ?_⟩
  · intro inp h
    rw [← o2]
    exact mainStep_normal st2 inp h
  · intro inp h
    rw [← o2]
    exact mainStep_rush st2 inp h
  · intro inp h
    rw [← o2]
    exact mainStep_adaptive st2 inp h
  · intro inp h1 h2 h3 h4 h5
    exact mainStep_invalid st2 inp h1 h2 h3 h4 h5

/-- C16 (amended): when Adaptive mode (choice 3) is the first choice after startup, every
road's yellow time is 3, the value of the initialiser in `main`, in every state observed
during that cycle and after it, whatever demand is entered. -/
theorem adaptive_first_yellow (first : Int) (demand : List Int) :
    ∃ st1 t1,
      mainStep initialState { choice := 3, first := first, demand := demand }
          = some (st1, t1)
        ∧ (∀ o ∈ t1, o.roads.map (fun x => x.yellowTime) = [3, 3, 3, 3])
        ∧ st1.roads.map (fun x => x.yellowTime) = [3, 3, 3, 3] := by
  have hmap : (adaptiveGreen (setVehicles initialState.roads demand) 8 8).map
      (fun x => x.yellowTime) = [3, 3, 3, 3] := by
    rw [adaptiveGreen_map (fun x => x.yellowTime) (fun _ _ => rfl),
      setVehicles_map (fun x => x.yellowTime) (fun _ _ => rfl)]
    rfl
  have hlen : (adaptiveGreen (setVehicles initialState.roads demand) 8 8).length = LANES := by
    have h := congrArg List.length hmap
    simpa using h
  have hrange : ∀ k ∈ [(0 : Int), 2, 1, 3], 0 ≤ k ∧ k ≤ 3 := by decide
  have hord : initialState.order = [0, 2, 1, 3] := rfl
  have e1 := mainStep_adaptive initialState
    { choice := 3, first := first, demand := demand } rfl
  simp only [hord] at e1
  refine ⟨_, _, e1, ?_, ?_⟩
  · intro o ho
    exact (simulateCycle_trace_map (fun x => x.yellowTime) (fun _ _ => rfl)
      (fun _ _ => rfl) _ 0 2 1 3 hlen hrange o ho).trans hmap
  · simp only [simulateCycle_roads _ 0 2 1 3 hlen hrange]
    rw [map_withSignal_map (fun x => x.yellowTime) (fun _ _ => rfl),
      computeRedTimes_map (fun x => x.yellowTime) (fun _ _ => rfl)]
    exact hmap

/-- C16 as stated fails: with choice 3 as the first choice after startup and demand
`[0, 0, 0, 0]`, the yellow times in the states of the cycle are not 0. -/
theorem adaptive_first_yellow_not_zero :
    ∃ st1 t1,
      mainStep initialState { choice := 3, first := 0, demand := [0, 0, 0, 0] }
          = some (st1, t1)
        ∧ ¬ (∀ o ∈ t1, ∀ x ∈ o.roads, x.yellowTime = 0) := by
  refine ⟨_, _, mainStep_adaptive initialState _ rfl, ?_⟩
  decide

/-- C19: the active order is always a permutation of the road indices: the initial order
is one; for every integer read into `first` the manual-override branch stays inside its
arrays, ends with `pos = 4` and builds a permutation; and after any sequence of menu
choices (none of them 5, which leaves the loop) the loop has returned with an order that
is a permutation with entries in 0..3, from which every step with choice 1 to 4 returns
and serves each road exactly once, in the order it then holds. -/
theorem active_order_permutation (inps : List MenuInput)
    (hno5 : ∀ inp ∈ inps, inp.choice ≠ 5) :
    initialState.order.Perm [0, 1, 2, 3]
      ∧ (∀ (order : List Int) (first : Int), order.length = LANES →
          ∃ o, manualOrder order first = some (o, 4) ∧ o.Perm [0, 1, 2, 3])
      ∧ ∃ st tr, runSteps initialState inps = some (st, tr)
          ∧ st.order.Perm [0, 1, 2, 3]
          ∧ (∀ k ∈ st.order, 0 ≤ k ∧ k ≤ 3)
          ∧ st.roads.length = LANES
          ∧ ∀ inp : MenuInput, inp.choice ∈ [(1 : Int), 2, 3, 4] →
              ∃ st1 t1, mainStep st inp = some (st1, t1)
                ∧ st1.order.Perm [0, 1, 2, 3]
                ∧ transitions t1 = servedInOrder st1.order
                ∧ ∀ i ∈ [(0 : Int), 1, 2, 3],
                    (transitions t1).count (i, Signal.GREEN) = 1 := by
  refine ⟨by decide, fun order first ho => manualOrder_total order first ho, ?_⟩
  obtain ⟨st, tr, e, hw⟩ := runSteps_wellFormed initialState inps initialState_wellFormed hno5
  refine ⟨st, tr, e, hw.2.2, (perm_range st.order hw.2.2).2, hw.1, ?_⟩
  intro inp hmem
  have h5 : inp.choice ≠ 5 := by
    simp only [List.mem_cons, List.mem_singleton, List.not_mem_nil, or_false] at hmem
    omega
  obtain ⟨st1, t1, e1, w1, htr⟩ := mainStep_wellFormed st inp hw h5
  refine ⟨st1, t1, e1, w1.2.2, htr hmem, ?_⟩
  intro i hi
  rw [htr hmem, count_green_servedInOrder, w1.2.2.count_eq]
  simp only [List.mem_cons, List.mem_singleton, List.not_mem_nil, or_false] at hi
  rcases hi with rfl | rfl | rfl | rfl <;> decide

/-! ## Instances at concrete inputs -/

theorem phaseLoop_mutual_exclusion_witness :
    allGreenRoads.length = LANES ∧ [2, 0, 1, 3].length = LANES
      ∧ (∀ k ∈ [(2 : Int), 0, 1, 3], 0 ≤ k ∧ k ≤ 3)
      ∧ ((∀ o ∈ (phaseLoop allGreenRoads [2, 0, 1, 3]).2, o.event.assignsRed = false →
            mutualExclusion o.roads)
        ∧ (∀ o ∈ (phaseLoop allGreenRoads [2, 0, 1, 3]).2.drop LANES,
            o.event.assignsRed = true → allRed o.roads)) :=
  ⟨rfl, rfl, by decide,
    phaseLoop_mutual_exclusion allGreenRoads [2, 0, 1, 3] rfl rfl (by decide)⟩

theorem phaseLoop_transitions_witness :
    unevenRoads.length = LANES ∧ List.Perm [(3 : Int), 1, 0, 2] [0, 1, 2, 3]
      ∧ (transitions (phaseLoop unevenRoads [3, 1, 0, 2]).2
            = initialResets unevenRoads ++ servedInOrder [3, 1, 0, 2]
        ∧ (allRed unevenRoads →
            transitions (phaseLoop unevenRoads [3, 1, 0, 2]).2 = servedInOrder [3, 1, 0, 2])
        ∧ ∀ i ∈ [(0 : Int), 1, 2, 3],
            (transitions (phaseLoop unevenRoads [3, 1, 0, 2]).2).count (i, Signal.GREEN)
              = 1) :=
  ⟨rfl, by decide, phaseLoop_transitions unevenRoads [3, 1, 0, 2] rfl (by decide)⟩

theorem computeRedTimes_sum_of_others_witness :
    unevenRoads.length = LANES ∧ 1 < LANES
      ∧ (rd (computeRedTimes unevenRoads) 1).redTime
          = (((List.range LANES).filter (fun j => j ≠ 1)).map
              (fun j => (rd unevenRoads j).greenTime + (rd unevenRoads j).yellowTime)).sum
      ∧ (rd (computeRedTimes unevenRoads) 1).redTime = 37 :=
  ⟨rfl, by decide, computeRedTimes_sum_of_others unevenRoads rfl 1 (by decide), by decide⟩

theorem adaptiveGreen_clamped_witness :
    busyRoads.length = LANES ∧ (∀ x ∈ busyRoads, 0 ≤ x.vehiclesWaiting) ∧ (0 : Int) ≤ 8
      ∧ 2 < LANES
      ∧ ((rd (adaptiveGreen busyRoads 8 8) 2).greenTime
            = 8 + max 0 (min ((rd busyRoads 2).vehiclesWaiting / 5) 8)
        ∧ (rd (adaptiveGreen busyRoads 8 8) 2).greenTime
            = 8 + min ((rd busyRoads 2).vehiclesWaiting / 5) 8) :=
  ⟨rfl, by decide, by decide, by decide,
    adaptiveGreen_clamped busyRoads 8 8 rfl (by decide) (by decide) 2 (by decide)⟩

theorem applyModeTimings_fixed_witness :
    unevenRoads.length = LANES ∧ 3 < LANES
      ∧ ((rd (applyModeTimings unevenRoads 2) 3).yellowTime = 3
        ∧ ((2 : Int) = 1 → (rd (applyModeTimings unevenRoads 2) 3).greenTime = 8)
        ∧ ((2 : Int) = 2 → (rd (applyModeTimings unevenRoads 2) 3).greenTime = 12)) :=
  ⟨rfl, by decide, applyModeTimings_fixed unevenRoads 2 rfl 3 (by decide)⟩

theorem manualOrder_chosen_first_witness :
    initialState.order.length = LANES ∧ (0 : Int) ≤ 3 ∧ (3 : Int) ≤ 3
      ∧ (manualOrder initialState.order 3).map Prod.fst = some [3, 0, 1, 2] :=
  ⟨rfl, by decide, by decide,
    (manualOrder_chosen_first initialState.order 3 rfl (by decide) (by decide)).1⟩

theorem manualOrder_out_of_range_witness :
    [(2 : Int), 0, 1, 3].length = LANES ∧ ((9 : Int) < 0 ∨ (3 : Int) < 9)
      ∧ manualOrder [2, 0, 1, 3] 9 = some ([0, 1, 2, 3], 4) :=
  ⟨rfl, by decide, (manualOrder_out_of_range [2, 0, 1, 3] 9 rfl (by decide)).1⟩

theorem setVehicles_clamps_witness :
    unevenRoads.length = LANES ∧ [(4 : Int), -7, 0, 30].length = LANES ∧ 1 < LANES
      ∧ ((rd (setVehicles unevenRoads [4, -7, 0, 30]) 1).vehiclesWaiting
            = max ([(4 : Int), -7, 0, 30].getD 1 0) 0
        ∧ 0 ≤ (rd (setVehicles unevenRoads [4, -7, 0, 30]) 1).vehiclesWaiting) :=
  ⟨rfl, rfl, by decide, setVehicles_clamps unevenRoads [4, -7, 0, 30] rfl rfl 1 (by decide)⟩

theorem simulateCycle_ends_all_red_witness :
    allGreenRoads.length = LANES ∧ [(1 : Int), 1, 3, 0].length = LANES
      ∧ (∀ k ∈ [(1 : Int), 1, 3, 0], 0 ≤ k ∧ k ≤ 3)
      ∧ ((simulateCycle allGreenRoads [1, 1, 3, 0]).1.length = LANES
        ∧ ∀ x ∈ (simulateCycle allGreenRoads [1, 1, 3, 0]).1, x.signal = Signal.RED) :=
  ⟨rfl, rfl, by decide,
    simulateCycle_ends_all_red allGreenRoads [1, 1, 3, 0] rfl rfl (by decide)⟩

theorem adaptive_mode_green_witness :
    unevenRoads.length = LANES ∧ busyRoads.length = LANES
      ∧ [(4 : Int), -7, 0, 30].length = LANES ∧ [(4 : Int), -7, 0, 47].length = LANES
      ∧ 3 < LANES
      ∧ (rd (adaptiveGreen (setVehicles unevenRoads [4, -7, 0, 30]) 8 8) 3).greenTime
          = 8 + min (max ([(4 : Int), -7, 0, 30].getD 3 0) 0 / 5) 8 :=
  ⟨rfl, rfl, rfl, rfl, by decide,
    (adaptive_mode_green unevenRoads busyRoads [4, -7, 0, 30] [4, -7, 0, 47]
      rfl rfl rfl rfl 3 (by decide)).1⟩

theorem manual_order_persists_witness :
    initialState.order.length = LANES
      ∧ (∀ inp ∈ laterInputs, inp.choice ≠ 4 ∧ inp.choice ≠ 5)
      ∧ ∃ st1 t1 st2 t2,
          mainStep initialState { choice := 4, first := 2, demand := [0, 0, 0, 0] }
              = some (st1, t1)
            ∧ runSteps st1 laterInputs = some (st2, t2)
            ∧ st2.order = st1.order :=
  ⟨rfl, by decide,
    match manual_order_persists initialState 2 [0, 0, 0, 0] laterInputs rfl (by decide) with
    | ⟨st1, t1, st2, t2, e1, e2, o2, _⟩ => ⟨st1, t1, st2, t2, e1, e2, o2⟩⟩

theorem applyModeTimings_frame_witness :
    unevenRoads.length = LANES ∧ 1 < LANES
      ∧ ((applyModeTimings unevenRoads 1).length = LANES
        ∧ (rd (applyModeTimings unevenRoads 1) 1).vehiclesWaiting
            = (rd unevenRoads 1).vehiclesWaiting
        ∧ (rd (applyModeTimings unevenRoads 1) 1).signal = (rd unevenRoads 1).signal
        ∧ (rd (applyModeTimings unevenRoads 1) 1).name = (rd unevenRoads 1).name
        ∧ (rd (applyModeTimings unevenRoads 1) 1).redTime = (rd unevenRoads 1).redTime) :=
  ⟨rfl, by decide, applyModeTimings_frame unevenRoads 1 rfl 1 (by decide)⟩

theorem phase_start_forces_exclusion_witness :
    allGreenRoads.length = LANES ∧ (0 : Int) ≤ 2 ∧ (2 : Int) ≤ 3
      ∧ ∃ G Y : List Road,
          statusSnapshots (simulateOneRoadPhase allGreenRoads 2).2 = [G, Y]
            ∧ onlyActive G 2 Signal.GREEN ∧ onlyActive Y 2 Signal.YELLOW
            ∧ (∀ o ∈ (simulateOneRoadPhase allGreenRoads 2).2, ∀ n : Nat,
                o.event = Event.tick "GREEN" n → o.roads = G)
            ∧ (∀ o ∈ (simulateOneRoadPhase allGreenRoads 2).2, ∀ n : Nat,
                o.event = Event.tick "YELLOW" n → o.roads = Y) :=
  ⟨rfl, by decide, by decide,
    phase_start_forces_exclusion allGreenRoads 2 rfl (by decide) (by decide)⟩

theorem adaptiveGreen_extra_capped_witness :
    busyRoads.length = LANES ∧ (0 : Int) ≤ 8 ∧ 3 < LANES
      ∧ (rd (adaptiveGreen busyRoads 8 8) 3).greenTime
          = 8 + min (Int.tdiv (rd busyRoads 3).vehiclesWaiting 5) 8 :=
  ⟨rfl, by decide, by decide,
    (adaptiveGreen_extra_capped busyRoads 8 8 rfl (by decide) 3 (by decide)).1⟩

theorem phase_hold_durations_witness :
    unevenRoads.length = LANES ∧ (0 : Int) ≤ 1 ∧ (1 : Int) ≤ 3
      ∧ 0 ≤ (rdInt unevenRoads 1).greenTime ∧ 0 ≤ (rdInt unevenRoads 1).yellowTime
      ∧ waits 1 (simulateOneRoadPhase unevenRoads 1).2
          = (countingDown (rdInt unevenRoads 1).greenTime.toNat).map
              (fun k => ("GREEN", Signal.GREEN, k))
            ++ (countingDown (rdInt unevenRoads 1).yellowTime.toNat).map
              (fun k => ("YELLOW", Signal.YELLOW, k)) :=
  ⟨rfl, by decide, by decide, by decide, by decide,
    (phase_hold_durations unevenRoads 1 rfl (by decide) (by decide) (by decide)
      (by decide)).1⟩

theorem adaptiveGreen_frame_witness :
    busyRoads.length = LANES ∧ 2 < LANES
      ∧ ((adaptiveGreen busyRoads 8 8).length = LANES
        ∧ (rd (adaptiveGreen busyRoads 8 8) 2).yellowTime = (rd busyRoads 2).yellowTime
        ∧ (rd (adaptiveGreen busyRoads 8 8) 2).vehiclesWaiting
            = (rd busyRoads 2).vehiclesWaiting
        ∧ (rd (adaptiveGreen busyRoads 8 8) 2).signal = (rd busyRoads 2).signal
        ∧ (rd (adaptiveGreen busyRoads 8 8) 2).redTime = (rd busyRoads 2).redTime
        ∧ (rd (adaptiveGreen busyRoads 8 8) 2).name = (rd busyRoads 2).name) :=
  ⟨rfl, by decide, adaptiveGreen_frame busyRoads 8 8 rfl 2 (by decide)⟩

theorem active_order_permutation_witness :
    (∀ inp ∈ sampleSession, inp.choice ≠ 5)
      ∧ ∃ st tr, runSteps initialState sampleSession = some (st, tr)
          ∧ st.order.Perm [0, 1, 2, 3] :=
  ⟨by decide,
    match (active_order_permutation sampleSession (by decide)).2.2 with
    | ⟨st, tr, e, hp, _⟩ => ⟨st, tr, e, hp⟩⟩

theorem computeRedTimes_complement_witness :
    unevenRoads.length = LANES ∧ 2 < LANES
      ∧ (rd (computeRedTimes unevenRoads) 2).redTime
          + (rd (computeRedTimes unevenRoads) 2).greenTime
          + (rd (computeRedTimes unevenRoads) 2).yellowTime
          = totalGreenTime (computeRedTimes unevenRoads)
            + totalYellowTime (computeRedTimes unevenRoads) :=
  ⟨rfl, by decide, (computeRedTimes_complement unevenRoads rfl 2 (by decide)).1⟩

end RoadTraffic
